import Mathlib

/-!
Verification of the great-fire-smyrna-rag ingestion and QA pipeline.

Shallow embedding of the Python source:
  * `src/enhanced_narrative_ingest.py` — chunking, JSON extraction of
    entities, and the Neo4j storage layer (`store_narrative_data`).
  * `src/comprehensive_ingest.py` — `split_into_episodes`.
  * `src/hybrid_qa_system.py` — `search_manually`, `batch_compress_episodes`,
    `answer_question`.

Python strings are embedded as `List Char`; Neo4j is embedded as an explicit
store of nodes and edges with the merge/match semantics of the exact Cypher
patterns the source issues.  The generative model and the HTTP transport are
inputs (oracles) of the embedded functions.
-/

namespace GreatFire

/-- The characters Python's `str.strip()` and `str.split()` treat as
whitespace (space, tab, newline, carriage return, vertical tab, form feed). -/
def isPySpace (c : Char) : Bool :=
  c = ' ' || c = '\t' || c = '\n' || c = '\r' || c = Char.ofNat 11 || c = Char.ofNat 12

/-- Python `s.strip()`: remove leading and trailing whitespace. -/
def pyStrip (s : List Char) : List Char :=
  ((s.dropWhile isPySpace).reverse.dropWhile isPySpace).reverse

/-- Python `content.split('\n\n')`: leftmost, non-overlapping split on the
two-character separator. -/
def pySplitNN : List Char → List (List Char)
  | [] => [[]]
  | '\n' :: '\n' :: rest => [] :: pySplitNN rest
  | c :: rest =>
    match pySplitNN rest with
    | [] => [[c]]
    | p :: ps => (c :: p) :: ps

/-- Helper for Python `s.split()` (split on whitespace runs). -/
def pyWordsAux : List Char → List Char → List (List Char)
  | [], acc => if acc.isEmpty then [] else [acc.reverse]
  | c :: rest, acc =>
    if isPySpace c then
      if acc.isEmpty then pyWordsAux rest [] else acc.reverse :: pyWordsAux rest []
    else pyWordsAux rest (c :: acc)

/-- Python `s.split()` with no argument: the list of maximal non-whitespace
runs. -/
def pySplitWs (s : List Char) : List (List Char) := pyWordsAux s []

/-- `len(para.split())`, the word count used by both chunkers. -/
def wordCount (s : List Char) : Nat := (pySplitWs s).length

/-- `[p.strip() for p in content.split('\n\n') if p.strip()]`: the stripped,
non-empty paragraphs of a document. -/
def paragraphsOf (content : List Char) : List (List Char) :=
  ((pySplitNN content).map pyStrip).filter (fun p => !p.isEmpty)

/-- Python `'\n\n'.join(chunk)`: join a chunk's paragraphs with a blank line. -/
def joinNN : List (List Char) → List Char
  | [] => []
  | [p] => p
  | p :: q :: ps => p ++ '\n' :: '\n' :: joinNN (q :: ps)

/-- The paragraph-accumulation loop shared (verbatim, up to the target word
count) by `split_for_narrative_analysis` (enhanced_narrative_ingest.py) and
`split_into_episodes` (comprehensive_ingest.py): a chunk accumulates
paragraphs; when adding the next paragraph would exceed `target` words and the
current chunk is non-empty, the chunk is emitted and a new one starts with
that paragraph.  Chunks are kept as lists of paragraphs here; the sources join
them with `'\n\n'` on emission. -/
def chunkLoop (target : Nat) : List (List Char) → List (List Char) → Nat →
    List (List (List Char))
  | [], cur, _ => if cur.isEmpty then [] else [cur]
  | p :: ps, cur, cw =>
    if cw + wordCount p > target ∧ cur ≠ [] then
      cur :: chunkLoop target ps [p] (wordCount p)
    else
      chunkLoop target ps (cur ++ [p]) (cw + wordCount p)

/-- `EnhancedNarrativeIngest.split_for_narrative_analysis`: paragraphs are
accumulated up to a target of 1500 words; each emitted chunk is the
`'\n\n'`-join of its paragraphs. -/
def split_for_narrative_analysis (content : List Char) : List (List Char) :=
  (chunkLoop 1500 (paragraphsOf content) [] 0).map joinNN

/-- One episode record produced by `split_into_episodes`
(comprehensive_ingest.py); `chapter_info` is carried through opaquely. -/
structure EpisodeChunk (μ : Type) where
  content : List Char
  word_count : Nat
  source_file : List Char
  chapter_info : μ
deriving Repr

/-- The loop body of `ComprehensiveIngestion.split_into_episodes`: same
accumulation as `chunkLoop` with target 1000, emitting episode records whose
word count is the running counter. -/
def episodeLoop (μ : Type) (filename : List Char) (metadata : μ) :
    List (List Char) → List (List Char) → Nat → List (EpisodeChunk μ)
  | [], cur, cw =>
    if cur.isEmpty then []
    else [⟨joinNN cur, cw, filename, metadata⟩]
  | p :: ps, cur, cw =>
    if cw + wordCount p > 1000 ∧ cur ≠ [] then
      ⟨joinNN cur, cw, filename, metadata⟩ ::
        episodeLoop μ filename metadata ps [p] (wordCount p)
    else
      episodeLoop μ filename metadata ps (cur ++ [p]) (cw + wordCount p)

/-- `ComprehensiveIngestion.split_into_episodes`. -/
def split_into_episodes (μ : Type) (content filename : List Char) (metadata : μ) :
    List (EpisodeChunk μ) :=
  episodeLoop μ filename metadata (paragraphsOf content) [] 0

/-! ## Structured extractor (`enhanced_narrative_ingest.py`) -/

/-- Shorthand: the character list of a string literal. -/
def strL (s : String) : List Char := s.data

/-- Helper for substring search: first index at or after the current position
where `pat` is a prefix. -/
def findSubAux (pat : List Char) : List Char → Nat → Option Nat
  | [], i => if pat.isEmpty then some i else none
  | s@(_ :: rest), i =>
    if pat.isPrefixOf s then some i else findSubAux pat rest (i + 1)

/-- Python `s.find(pat, start)` (as an `Option` instead of `-1`): absolute
index of the first occurrence of `pat` in `s` at or after `start`. -/
def pyFindSub (pat s : List Char) (start : Nat) : Option Nat :=
  (findSubAux pat (s.drop start) 0).map (· + start)

/-- Python `pat in s` for strings: substring containment. -/
def containsSub (pat s : List Char) : Bool := (pyFindSub pat s 0).isSome

/-- Python slice `s[a:b]`. -/
def sliceList (s : List Char) (a b : Nat) : List Char := (s.take b).drop a

/-- The brace-counting loop of
`EnhancedNarrativeIngest.extract_first_complete_json`: starting inside the
response at the first `'{'`, count `'{'` up and `'}'` down (an `Int`, exactly
as Python's counter), returning the consumed prefix once the count reaches
zero, or `none` if the scan runs out of input. -/
def scanBraces : List Char → Int → List Char → Option (List Char)
  | [], _, _ => none
  | c :: rest, n, acc =>
    if c = '{' then scanBraces rest (n + 1) (c :: acc)
    else if c = '}' then
      if n - 1 = 0 then some (c :: acc).reverse
      else scanBraces rest (n - 1) (c :: acc)
    else scanBraces rest n (c :: acc)

/-- `EnhancedNarrativeIngest.extract_first_complete_json`: the first balanced
brace-delimited block; the empty string when there is no `'{'`; the whole
tail from the first `'{'` when the braces never balance (truncated JSON). -/
def extract_first_complete_json (response : List Char) : List Char :=
  match response.findIdx? (fun c => c = '{') with
  | none => []
  | some start =>
    let tail := response.drop start
    match scanBraces tail 0 [] with
    | some s => s
    | none => tail

/-- JSON values, the result type of the embedded `json.loads`. -/
inductive Json where
  | null : Json
  | bool (b : Bool) : Json
  | num (n : Int) : Json
  | str (s : List Char) : Json
  | arr (elems : List Json) : Json
  | obj (fields : List (List Char × Json)) : Json

/-- JSON whitespace skipping for the embedded parser. -/
def skipWs : List Char → List Char
  | c :: rest =>
    if c = ' ' || c = '\t' || c = '\n' || c = '\r' then skipWs rest else c :: rest
  | [] => []

/-- String-literal body parser (after the opening quote); standard escapes are
mapped, unknown escapes keep the escaped character. -/
def parseStrBody : List Char → List Char → Option (List Char × List Char)
  | [], _ => none
  | '"' :: rest, acc => some (acc.reverse, rest)
  | '\\' :: e :: rest, acc =>
    let c :=
      if e = 'n' then '\n'
      else if e = 't' then '\t'
      else if e = 'r' then '\r'
      else if e = 'b' then Char.ofNat 8
      else if e = 'f' then Char.ofNat 12
      else e
    parseStrBody rest (c :: acc)
  | '\\' :: [], _ => none
  | c :: rest, acc => parseStrBody rest (c :: acc)

/-- Number parser: sign and digits, consuming (but not representing) any
fraction and exponent part; the value is the leading integer. -/
def parseNumBody (s : List Char) : Option (Json × List Char) :=
  let (neg, s1) := match s with
    | '-' :: r => (true, r)
    | _ => (false, s)
  let ds := s1.takeWhile (fun c => c.isDigit)
  let r1 := s1.dropWhile (fun c => c.isDigit)
  if ds.isEmpty then none
  else
    let n : Int := ds.foldl (fun a c => a * 10 + ((c.toNat : Int) - 48)) 0
    let afterFrac : Option (List Char) :=
      match r1 with
      | '.' :: r2 =>
        let fs := r2.takeWhile (fun c => c.isDigit)
        if fs.isEmpty then none else some (r2.dropWhile (fun c => c.isDigit))
      | _ => some r1
    match afterFrac with
    | none => none
    | some r3 =>
      let afterExp : Option (List Char) :=
        match r3 with
        | 'e' :: r4 =>
          let r5 := match r4 with
            | '+' :: r => r
            | '-' :: r => r
            | _ => r4
          let es := r5.takeWhile (fun c => c.isDigit)
          if es.isEmpty then none else some (r5.dropWhile (fun c => c.isDigit))
        | 'E' :: r4 =>
          let r5 := match r4 with
            | '+' :: r => r
            | '-' :: r => r
            | _ => r4
          let es := r5.takeWhile (fun c => c.isDigit)
          if es.isEmpty then none else some (r5.dropWhile (fun c => c.isDigit))
        | _ => some r3
      match afterExp with
      | none => none
      | some r6 => some (Json.num (if neg then -n else n), r6)

mutual

/-- Fuel-bounded strict JSON value parser modelling Python's `json.loads`
(one value, then the remaining input). -/
def parseVal : Nat → List Char → Option (Json × List Char)
  | 0, _ => none
  | Nat.succ fuel, s =>
    match skipWs s with
    | '{' :: rest => parseObjBody fuel rest
    | '[' :: rest => parseArrBody fuel rest
    | '"' :: rest => (parseStrBody rest []).map (fun p => (Json.str p.1, p.2))
    | 't' :: 'r' :: 'u' :: 'e' :: rest => some (Json.bool true, rest)
    | 'f' :: 'a' :: 'l' :: 's' :: 'e' :: rest => some (Json.bool false, rest)
    | 'n' :: 'u' :: 'l' :: 'l' :: rest => some (Json.null, rest)
    | c :: rest =>
      if c = '-' || c.isDigit then parseNumBody (c :: rest) else none
    | [] => none

/-- Object body, directly after `'{'`. -/
def parseObjBody : Nat → List Char → Option (Json × List Char)
  | 0, _ => none
  | Nat.succ fuel, s =>
    match skipWs s with
    | '}' :: rest => some (Json.obj [], rest)
    | _ => parseMembers fuel (skipWs s) []

/-- One `"key": value` member, then `,` (more members) or `}` (done). -/
def parseMembers : Nat → List Char → List (List Char × Json) →
    Option (Json × List Char)
  | 0, _, _ => none
  | Nat.succ fuel, s, acc =>
    match skipWs s with
    | '"' :: rest =>
      match parseStrBody rest [] with
      | none => none
      | some (key, r1) =>
        match skipWs r1 with
        | ':' :: r2 =>
          match parseVal fuel r2 with
          | none => none
          | some (v, r3) =>
            match skipWs r3 with
            | ',' :: r4 => parseMembers fuel r4 ((key, v) :: acc)
            | '}' :: r4 => some (Json.obj ((key, v) :: acc).reverse, r4)
            | _ => none
        | _ => none
    | _ => none

/-- Array body, directly after `'['`. -/
def parseArrBody : Nat → List Char → Option (Json × List Char)
  | 0, _ => none
  | Nat.succ fuel, s =>
    match skipWs s with
    | ']' :: rest => some (Json.arr [], rest)
    | _ => parseElems fuel (skipWs s) []

/-- One array element, then `,` (more elements) or `]` (done). -/
def parseElems : Nat → List Char → List Json → Option (Json × List Char)
  | 0, _, _ => none
  | Nat.succ fuel, s, acc =>
    match parseVal fuel s with
    | none => none
    | some (v, r1) =>
      match skipWs r1 with
      | ',' :: r2 => parseElems fuel r2 (v :: acc)
      | ']' :: r2 => some (Json.arr (v :: acc).reverse, r2)
      | _ => none

end

/-- Embedded `json.loads`: parse one JSON value and require only whitespace
to remain (Python raises `JSONDecodeError` on extra data); `none` models a
`JSONDecodeError`. -/
def pyJsonLoads (s : List Char) : Option Json :=
  match parseVal (s.length + 1) s with
  | some (v, rest) => if (skipWs rest).isEmpty then some v else none
  | none => none

/-- Python `key in parsed` for an untyped JSON value: key membership for a
dict, element equality for a list, substring test for a string; `none` models
the `TypeError` raised for the remaining types. -/
def pyInJson (key : List Char) : Json → Option Bool
  | Json.obj fields => some (fields.any (fun f => f.1 == key))
  | Json.arr elems =>
    some (elems.any (fun e =>
      match e with
      | Json.str s => s == key
      | _ => false))
  | Json.str s => some (containsSub key s)
  | _ => none

/-- Python `parsed[key]` for a string key: dict lookup; `none` models the
`TypeError` raised when `parsed` is not a dict. -/
def jsonIndexStr (j : Json) (key : List Char) : Option Json :=
  match j with
  | Json.obj fields => (fields.find? (fun f => f.1 == key)).map (fun f => f.2)
  | _ => none

/-- `isinstance(item, dict) and 'name' in item`: the per-record validation of
`extract_narrative_entities`. -/
def entityItemHasName : Json → Bool
  | Json.obj fs => fs.any (fun f => f.1 == strL "name")
  | _ => false

/-- The record set type returned by `extract_narrative_entities`: a dict from
category name to the list of accepted records. -/
abbrev EntityDict : Type := List (List Char × List Json)

/-- The body of the validation loop of `extract_narrative_entities` for one
category key: `if key in parsed and isinstance(parsed[key], list): ...append
items that are dicts carrying a name...`; `none` models a `TypeError`. -/
def collectKey (parsed : Json) (key : List Char) : Option (List Json) :=
  match pyInJson key parsed with
  | none => none
  | some false => some []
  | some true =>
    match jsonIndexStr parsed key with
    | some (Json.arr items) => some (items.filter entityItemHasName)
    | some _ => some []
    | none => none

/-- The dict `{"characters": [], "locations": [], "events": []}` returned by
the success path of `extract_narrative_entities` before the validation loop
fills it. -/
def emptyResult3 : EntityDict :=
  [(strL "characters", []), (strL "locations", []), (strL "events", [])]

/-- The six-key empty dict both exception handlers of
`extract_narrative_entities` return. -/
def emptyResult6 : EntityDict :=
  [(strL "characters", []), (strL "locations", []), (strL "events", []),
   (strL "organizations", []), (strL "temporal_markers", []), (strL "themes", [])]

/-- `EnhancedNarrativeIngest.extract_narrative_entities`, from the model
response on: when the response holds both `'{'` and `'}'`, pick the fenced
block if a ```` ```json ```` fence is present (else the first balanced brace
block), `json.loads` it, and keep only list entries under the three expected
keys that are dicts with a `name`; a `JSONDecodeError` or `TypeError` yields
the six-key empty dict.  When `'{'` or `'}'` is absent the Python function
falls off the end of its `try` block and returns `None`. -/
def extract_narrative_entities (response : List Char) : Option EntityDict :=
  if response.contains '{' && response.contains '}' then
    let json_str :=
      if containsSub (strL "```json") response then
        match pyFindSub (strL "```json") response 0 with
        | some idx =>
          let start := idx + 7
          match pyFindSub (strL "```") response start with
          | some stop => pyStrip (sliceList response start stop)
          | none => extract_first_complete_json response
        | none => extract_first_complete_json response
      else extract_first_complete_json response
    match pyJsonLoads json_str with
    | none => some emptyResult6
    | some parsed =>
      match collectKey parsed (strL "characters"),
            collectKey parsed (strL "locations"),
            collectKey parsed (strL "events") with
      | some cs, some ls, some es =>
        some [(strL "characters", cs), (strL "locations", ls), (strL "events", es)]
      | _, _, _ => some emptyResult6
  else
    none

/-- A record set is valid when every accepted record is a dict with a
`name` field. -/
def validEntityDict (d : EntityDict) : Prop :=
  ∀ p ∈ d, ∀ item ∈ p.2, entityItemHasName item = true

/-! ## Graph store (`store_narrative_data`, enhanced_narrative_ingest.py)

Neo4j is embedded as an explicit store of nodes and edges.  `datetime()` is
modelled by a transaction-time parameter `now`; property values are strings,
integers or such timestamps.  MERGE/MATCH follow Cypher semantics for the
exact patterns the source issues: a pattern matches a node/edge whose labels
include the pattern's labels and whose properties agree on every key the
pattern lists. -/

/-- A Neo4j property value: string, integer, or a `datetime()` stamp
identified by the transaction time that produced it. -/
inductive Value where
  | str (s : String)
  | int (n : Int)
  | time (t : Nat)
deriving DecidableEq, Repr

/-- A graph node: identity, labels, property map. -/
structure Node where
  id : Nat
  labels : List String
  props : List (String × Value)
deriving DecidableEq, Repr

/-- A directed typed edge between node ids. -/
structure Edge where
  src : Nat
  dst : Nat
  relType : String
  props : List (String × Value)
deriving DecidableEq, Repr

/-- The graph store state. -/
structure Store where
  nodes : List Node
  edges : List Edge
  nextId : Nat
deriving DecidableEq, Repr

/-- Property lookup in a property map. -/
def lookupProp (props : List (String × Value)) (k : String) : Option Value :=
  (props.find? (fun p => p.1 == k)).map (fun p => p.2)

/-- `SET` one property (overwrite or append). -/
def setProp (props : List (String × Value)) (k : String) (v : Value) :
    List (String × Value) :=
  if (props.find? (fun p => p.1 == k)).isSome then
    props.map (fun p => if p.1 == k then (k, v) else p)
  else props ++ [(k, v)]

/-- `SET` many properties in order (Cypher `+=` and chained `SET`). -/
def setProps (props upd : List (String × Value)) : List (String × Value) :=
  upd.foldl (fun acc kv => setProp acc kv.1 kv.2) props

/-- A Cypher property pattern matches when the target agrees on every listed
key (extra properties on the target are allowed). -/
def propsMatch (pattern target : List (String × Value)) : Bool :=
  pattern.all (fun kv => lookupProp target kv.1 == some kv.2)

/-- A Python dict of string keys and values, as passed around by the
ingestion code for entity and relationship records. -/
abbrev PyDict := List (String × String)

/-- Python `d.get(k, dflt)`. -/
def dictGet (d : PyDict) (k : String) (dflt : String) : String :=
  match d.find? (fun p => p.1 == k) with
  | some p => p.2
  | none => dflt

/-- Python `k in d`. -/
def dictHas (d : PyDict) (k : String) : Bool :=
  (d.find? (fun p => p.1 == k)).isSome

/-- `EnhancedNarrativeIngest.get_entity_key`. -/
def get_entity_key (entity : PyDict) (category : String) : String :=
  if dictHas entity "name" then dictGet entity "name" ""
  else if category == "temporal_markers" && dictHas entity "time_reference" then
    dictGet entity "time_reference" ""
  else if category == "themes" && dictHas entity "theme" then
    dictGet entity "theme" ""
  else ""

/-- `EnhancedNarrativeIngest.validate_relationship`: the three required keys
are present and truthy. -/
def validate_relationship (rel : PyDict) : Bool :=
  ["from", "to", "relationship_type"].all
    (fun k => dictHas rel k && (dictGet rel k "" != ""))

/-- `EnhancedNarrativeIngest.assess_chapter_importance`. -/
def assess_chapter_importance (entities : List (String × List PyDict)) : String :=
  let events := match entities.find? (fun p => p.1 == "events") with
    | some p => p.2
    | none => []
  let characters := match entities.find? (fun p => p.1 == "characters") with
    | some p => p.2
    | none => []
  let major_events :=
    (events.filter (fun e => dictGet e "story_turning_point" "" == "true")).length
  let character_developments :=
    (characters.filter
      (fun c => dictHas c "development" && (dictGet c "development" "" != ""))).length
  if major_events ≥ 2 ∨ character_developments ≥ 3 then "high"
  else if major_events ≥ 1 ∨ character_developments ≥ 2 then "medium"
  else "low"

/-- `EnhancedNarrativeIngest.determine_story_position`. -/
def determine_story_position (sequence : Int) : String :=
  if sequence ≤ 9 then "setup"
  else if sequence ≤ 18 then "rising_action"
  else if sequence ≤ 27 then "climax"
  else "resolution"

/-- The indicator keys counted by `calculate_narrative_depth`. -/
def depth_indicators : List String :=
  ["character_arc_stage", "emotional_state", "motivations", "development",
   "narrative_importance", "story_events", "symbolic_meaning",
   "narrative_function", "consequences", "emotional_impact"]

/-- `EnhancedNarrativeIngest.calculate_narrative_depth`. -/
def calculate_narrative_depth (entity : PyDict) : Nat :=
  (depth_indicators.filter
    (fun k => dictHas entity k && (dictGet entity k "" != ""))).length

/-- Python `s.lower()` (ASCII model). -/
def pyLowerStr (s : String) : String := String.mk (s.data.map Char.toLower)

/-- `EnhancedNarrativeIngest.assess_entity_importance`. -/
def assess_entity_importance (entity : PyDict) (category : String) : String :=
  if category == "characters" then
    if containsSub (strL "main") (pyLowerStr (dictGet entity "significance" "")).data
    then "high"
    else if ["commander", "minister", "leader"].contains
        (pyLowerStr (dictGet entity "role" "")) then "high"
    else if dictGet entity "development" "" != "" then "medium"
    else "low"
  else if category == "events" then
    if dictGet entity "story_turning_point" "" == "true" then "high"
    else if dictGet entity "narrative_function" "" != "" then "medium"
    else "low"
  else "medium"

/-- Helper for Python `str.title()`: uppercase each letter that starts a word,
lowercase the rest. -/
def pyTitleAux : List Char → Bool → List Char
  | [], _ => []
  | c :: rest, prevAlpha =>
    (if c.isAlpha && !prevAlpha then c.toUpper
     else if c.isAlpha then c.toLower else c) :: pyTitleAux rest c.isAlpha

/-- `category.title()[:-1]`: the node label derived from a category name
(e.g. `"characters"` becomes `"Character"`). -/
def categoryLabel (category : String) : String :=
  String.mk (pyTitleAux category.data false).dropLast

/-- `category[:-1]`: the `category` property stored on entity nodes. -/
def categorySingular (category : String) : String :=
  String.mk category.data.dropLast

/-- Node-pattern match for `(:Entity:Label {name: $name})`-style patterns:
the node carries all pattern labels and agrees on the listed properties. -/
def nodeMatches (labels : List String) (props : List (String × Value))
    (n : Node) : Bool :=
  labels.all (fun l => n.labels.contains l) && propsMatch props n.props

/-- Node `MERGE`: if nodes match the pattern, apply the `SET` clause to each;
otherwise create one node carrying exactly the pattern and apply the `SET`
clause to it.  Returns the store and the ids the pattern variable binds. -/
def mergeNode (s : Store) (labels : List String) (pprops : List (String × Value))
    (setter : Node → Node) : Store × List Nat :=
  let matched := s.nodes.filter (nodeMatches labels pprops)
  if matched.isEmpty then
    let newNode := setter { id := s.nextId, labels := labels, props := pprops }
    ({ s with nodes := s.nodes ++ [newNode], nextId := s.nextId + 1 }, [s.nextId])
  else
    let upd := s.nodes.map (fun n => if nodeMatches labels pprops n then setter n else n)
    ({ s with nodes := upd }, matched.map (fun n => n.id))

/-- Edge `MERGE` for a property-less pattern (`MERGE (ep)-[r:MENTIONS]->(ent)`)
followed by `SET` on the merged edge. -/
def mergeMentionEdge (s : Store) (epId entId : Nat)
    (rprops : List (String × Value)) : Store :=
  let isTarget := fun (e : Edge) =>
    e.src == epId && e.dst == entId && e.relType == "MENTIONS"
  let s1 :=
    if s.edges.any isTarget then s
    else { s with edges := s.edges ++ [⟨epId, entId, "MENTIONS", []⟩] }
  let upd := s1.edges.map
    (fun e => if isTarget e then { e with props := setProps e.props rprops } else e)
  { s1 with edges := upd }

/-- The `SET` clause of the entity query: `ent += $properties`, then
`category`, `last_updated`, `narrative_depth`. -/
def entitySetter (properties : List (String × Value)) (category : String)
    (now : Nat) (ndepth : Nat) (n : Node) : Node :=
  let newProps :=
    setProps (setProps n.props properties)
      [("category", Value.str category), ("last_updated", Value.time now),
       ("narrative_depth", Value.int ndepth)]
  { n with props := newProps }

/-- One iteration of the entity loop of
`EnhancedNarrativeIngest.store_narrative_data`: `MERGE` the entity node on
`(:Entity:CategoryLabel {name})`, `SET` its attributes, then `MERGE` a
`MENTIONS` edge from every episode node with the episode's name. -/
def store_one_entity (episode_name category : String) (entity : PyDict)
    (now : Nat) (s : Store) : Store :=
  let entity_name := get_entity_key entity category
  let properties :=
    (entity.filter (fun kv => kv.1 != "name")).map (fun kv => (kv.1, Value.str kv.2))
  let merged := mergeNode s ["Entity", categoryLabel category]
      [("name", Value.str entity_name)]
      (entitySetter properties (categorySingular category) now
        (calculate_narrative_depth entity))
  let s1 := merged.1
  let entIds := merged.2
  let epIds := (s1.nodes.filter (fun n =>
      n.labels.contains "Episode" &&
      propsMatch [("name", Value.str episode_name)] n.props)).map (fun n => n.id)
  let rprops := [("context_in_chapter", Value.str (dictGet entity "significance" "")),
                 ("importance", Value.str (assess_entity_importance entity category))]
  entIds.foldl (fun acc entId =>
    epIds.foldl (fun acc2 epId => mergeMentionEdge acc2 epId entId rprops) acc) s1

/-- The entity loop over one category list, guarded exactly as the source:
only dict items with a non-empty `get_entity_key` are stored. -/
def store_entities_category (episode_name category : String)
    (ents : List PyDict) (now : Nat) (s : Store) : Store :=
  ents.foldl (fun acc entity =>
    if get_entity_key entity category != "" then
      store_one_entity episode_name category entity now acc
    else acc) s

/-- The full entity loop over the categories dict. -/
def store_entities (episode_name : String)
    (entities : List (String × List PyDict)) (now : Nat) (s : Store) : Store :=
  entities.foldl (fun acc p =>
    store_entities_category episode_name p.1 p.2 now acc) s

/-- The `episode_data` dict built by `process_file_with_narrative_depth`. -/
structure EpisodeData where
  name : String
  content : String
  filename : String
  word_count : Nat
deriving Repr

/-- The chapter metadata dict (`extract_chapter_metadata`) as used by
`store_narrative_data`. -/
structure ChapterInfo where
  chapter_number : Int
  title : String
  sequence : Int
deriving Repr

/-- The `CREATE (ep:Episode:Chapter {...})` query of `store_narrative_data`:
always creates a fresh node (never merges). -/
def create_episode (ep : EpisodeData) (ci : ChapterInfo)
    (entities : List (String × List PyDict)) (now : Nat) (s : Store) : Store :=
  let node : Node :=
    { id := s.nextId
      labels := ["Episode", "Chapter"]
      props := [("name", Value.str ep.name), ("content", Value.str ep.content),
        ("filename", Value.str ep.filename),
        ("chapter_number", Value.int ci.chapter_number),
        ("chapter_title", Value.str ci.title),
        ("chapter_sequence", Value.int ci.sequence),
        ("word_count", Value.int ep.word_count),
        ("narrative_importance", Value.str (assess_chapter_importance entities)),
        ("created_at", Value.time now),
        ("story_arc_position", Value.str (determine_story_position ci.sequence))] }
  { s with nodes := s.nodes ++ [node], nextId := s.nextId + 1 }

/-- The full property map of the `MERGE (a)-[r:RELATES_TO {...}]->(b)` pattern
of `store_narrative_data` — erroneously including `created_at: datetime()`,
so the merge key is the whole attribute map plus the write time. -/
def relPropMap (rel : PyDict) (chapter_title : String) (now : Nat) :
    List (String × Value) :=
  [("type", Value.str (dictGet rel "relationship_type" "")),
   ("narrative_context", Value.str (dictGet rel "narrative_context" "")),
   ("emotional_dimension", Value.str (dictGet rel "emotional_dimension" "")),
   ("power_dynamic", Value.str (dictGet rel "power_dynamic" "")),
   ("temporal_nature", Value.str (dictGet rel "temporal_nature" "")),
   ("story_importance", Value.str (dictGet rel "story_importance" "medium")),
   ("conflict_or_harmony", Value.str (dictGet rel "conflict_or_harmony" "neutral")),
   ("evidence", Value.str (dictGet rel "evidence" "")),
   ("chapter", Value.str chapter_title),
   ("created_at", Value.time now)]

/-- Whether a `RELATES_TO` edge between the given node ids matches the given
property pattern (the `MERGE` lookup condition). -/
def edgeExistsB (s : Store) (aId bId : Nat) (pprops : List (String × Value)) :
    Bool :=
  s.edges.any (fun e =>
    e.src == aId && e.dst == bId && e.relType == "RELATES_TO" &&
    propsMatch pprops e.props)

/-- Edge `MERGE` with a property pattern: reuse an edge agreeing on every
pattern key, else create one carrying exactly the pattern. -/
def mergeRelEdge (s : Store) (aId bId : Nat) (pprops : List (String × Value)) :
    Store :=
  if edgeExistsB s aId bId pprops then s
  else { s with edges := s.edges ++ [⟨aId, bId, "RELATES_TO", pprops⟩] }

/-- One iteration of the relationship loop:
`MATCH (a:Entity {name: $from_name}) MATCH (b:Entity {name: $to_name})`
(a cross product of matches — when either `MATCH` finds nothing the `MERGE`
never runs and the edge is silently skipped), then the `RELATES_TO` merge. -/
def store_one_relationship (rel : PyDict) (chapter_title : String) (now : Nat)
    (s : Store) : Store :=
  let aIds := (s.nodes.filter (nodeMatches ["Entity"]
      [("name", Value.str (dictGet rel "from" ""))])).map (fun n => n.id)
  let bIds := (s.nodes.filter (nodeMatches ["Entity"]
      [("name", Value.str (dictGet rel "to" ""))])).map (fun n => n.id)
  let pprops := relPropMap rel chapter_title now
  aIds.foldl (fun acc aId =>
    bIds.foldl (fun acc2 bId => mergeRelEdge acc2 aId bId pprops) acc) s

/-- The relationship loop of `store_narrative_data`, guarded by
`validate_relationship`. -/
def store_relationships (rels : List PyDict) (chapter_title : String)
    (now : Nat) (s : Store) : Store :=
  rels.foldl (fun acc rel =>
    if validate_relationship rel then
      store_one_relationship rel chapter_title now acc
    else acc) s

/-- `EnhancedNarrativeIngest.store_narrative_data`: episode first, then
entities, then relationships, all at transaction time `now`. -/
def store_narrative_data (episode_data : EpisodeData)
    (entities : List (String × List PyDict)) (relationships : List PyDict)
    (chapter_info : ChapterInfo) (now : Nat) (s : Store) : Store :=
  store_relationships relationships chapter_info.title now
    (store_entities episode_data.name entities now
      (create_episode episode_data chapter_info entities now s))

/-- Number of nodes labelled `Entity` and `catLabel` with the given name. -/
def countEntityNodes (s : Store) (catLabel name : String) : Nat :=
  (s.nodes.filter (nodeMatches ["Entity", catLabel]
    [("name", Value.str name)])).length

/-- Number of nodes labelled `Entity` with the given name (any category). -/
def countEntityNamed (s : Store) (name : String) : Nat :=
  (s.nodes.filter (nodeMatches ["Entity"] [("name", Value.str name)])).length

/-- Whether node id `i` names `name` in store `s`. -/
def nodeNamed (s : Store) (i : Nat) (name : String) : Bool :=
  s.nodes.any (fun n =>
    n.id == i && propsMatch [("name", Value.str name)] n.props)

/-- Number of `RELATES_TO` edges of the given `type` between nodes of the
given names. -/
def countRelatesTo (s : Store) (fromName toName relType : String) : Nat :=
  (s.edges.filter (fun e =>
    e.relType == "RELATES_TO" &&
    lookupProp e.props "type" == some (Value.str relType) &&
    nodeNamed s e.src fromName && nodeNamed s e.dst toName)).length

/-- Some node with this id exists. -/
def hasNodeId (s : Store) (i : Nat) : Bool := s.nodes.any (fun n => n.id == i)

/-- Endpoint integrity: every stored edge points at existing nodes. -/
def edgeEndpointsOk (s : Store) : Prop :=
  ∀ e ∈ s.edges, hasNodeId s e.src = true ∧ hasNodeId s e.dst = true

/-! ## Hybrid QA system (`hybrid_qa_system.py`)

The Neo4j database read by `search_manually` is an input (`QADb`), with the
Cypher `WHERE`/`ORDER BY`/`LIMIT` clauses of each query implemented on it.
The generative model is an oracle: `String → Option String` for the raw
`requests.post` of `batch_compress_episodes` (`none` = non-200 / exception),
`String → String` for `call_ollama` (which already totalises errors into
`"Error: ..."` strings). -/

/-- Python `s.strip(chars)`: remove any of `cs` from both ends. -/
def pyStripChars (cs : List Char) (s : List Char) : List Char :=
  ((s.dropWhile (fun c => cs.contains c)).reverse.dropWhile
    (fun c => cs.contains c)).reverse

/-- Python `s[:n]` on a string. -/
def pyTake (n : Nat) (s : String) : String := String.mk (s.data.take n)

/-- Python `s.replace(a, b)` for single characters. -/
def pyReplaceChar (a b : Char) (s : String) : String :=
  String.mk (s.data.map (fun c => if c = a then b else c))

/-- Insertion step for the `ORDER BY` model. -/
def insertLe {α : Type} (le : α → α → Bool) (x : α) : List α → List α
  | [] => [x]
  | y :: ys => if le x y then x :: y :: ys else y :: insertLe le x ys

/-- Sorting model for Cypher `ORDER BY` (stable insertion sort). -/
def sortByLe {α : Type} (le : α → α → Bool) (l : List α) : List α :=
  l.foldr (insertLe le) []

/-- A `Character` node as read by `search_manually` (Neo4j properties may be
absent, hence `Option`). -/
structure CharRec where
  name : Option String
  role : Option String
  nationality : Option String
  significance : Option String
deriving Repr

/-- A `RELATES_TO` edge between characters (by endpoint name), as read by the
profile query's `OPTIONAL MATCH`. -/
structure CharRel where
  a : String
  b : String
  rtype : Option String
  narrative_context : Option String
deriving Repr

/-- An `Episode` node as read by the content query. -/
structure EpRec where
  name : String
  content : String
  chapter_sequence : Int
deriving Repr

/-- An `Event` node as read by the event query. -/
structure EvRec where
  name : Option String
  narrative_function : Option String
  participants : Option String
  consequences : Option String
deriving Repr

/-- The database as seen by `search_manually`. -/
structure QADb where
  characters : List CharRec
  charRels : List CharRel
  episodes : List EpRec
  events : List EvRec
deriving Repr

/-- One entry of the `collect({other: ..., relationship: ..., context: ...})`
row of the character profile query. -/
structure RelEntry where
  other : Option String
  relationship : Option String
  context : Option String
deriving Repr

/-- Python truthiness of an optional string (absent or empty = falsy). -/
def truthyOpt : Option String → Bool
  | some s => s != ""
  | none => false

/-- Case-insensitive Cypher `toLower(field) CONTAINS pat` on an optional
property (`null` never matches). -/
def optContains (o : Option String) (pat : String) : Bool :=
  match o with
  | some s => containsSub (strL pat) (pyLowerStr s).data
  | none => false

/-- The `known_characters` lexicon of `search_manually`. -/
def known_characters : List String :=
  ["atatürk", "ataturk", "kemal", "jennings", "bristol", "horton", "powell"]

/-- The `key_names` list: lexicon hits in the lowercased question plus the
three conditional related-term extensions. -/
def key_names (question : String) : List String :=
  let ql := (pyLowerStr question).data
  let base := known_characters.filter (fun c => containsSub (strL c) ql)
  let e1 :=
    if ["atatürk", "turkish", "turkey"].any (fun t => containsSub (strL t) ql) then
      ["bristol", "american", "republic"]
    else []
  let e2 :=
    if containsSub (strL "american") ql && containsSub (strL "officials") ql then
      ["bristol", "engagement", "policy"]
    else []
  let e3 :=
    if containsSub (strL "humanitarian") ql then
      ["relief", "organization", "jennings"]
    else []
  base ++ e1 ++ e2 ++ e3

/-- The stopword list of the generic word extraction. -/
def stopwords : List String := ["with", "that", "this", "were", "have", "from"]

/-- `words`: question words longer than 3 characters, not stopwords,
lowercased and stripped of `.,?!`. -/
def searchWords (question : String) : List String :=
  ((pySplitWs question.data).filter (fun w =>
      w.length > 3 && !(stopwords.contains (pyLowerStr (String.mk w))))).map
    (fun w => String.mk (pyStripChars ['.', ',', '?', '!'] (pyLowerStr (String.mk w)).data))

/-- `name.replace('ü','u').replace('ä','a').replace('ö','o')`. -/
def normalizedSearchName (s : String) : String :=
  pyReplaceChar 'ö' 'o' (pyReplaceChar 'ä' 'a' (pyReplaceChar 'ü' 'u' s))

/-- Cypher `replace(replace(c.name,'ü','u'),'ä','a')` (note: no `'ö'`). -/
def replaceUA (s : String) : String :=
  pyReplaceChar 'ä' 'a' (pyReplaceChar 'ü' 'u' s)

/-- The `WHERE` clause of the character profile query. -/
def charNameMatches (searchName : String) (c : CharRec) : Bool :=
  match c.name with
  | none => false
  | some nm =>
    containsSub (strL searchName) (pyLowerStr nm).data ||
    containsSub (strL (normalizedSearchName searchName)) (pyLowerStr nm).data ||
    containsSub (strL searchName) (pyLowerStr (replaceUA nm)).data

/-- The `OPTIONAL MATCH (c)-[r:RELATES_TO]-(other)` + `collect(...)` row: all
undirected relationship entries of a character, or a single all-`null` entry
when there are none. -/
def relEntriesFor (db : QADb) (cname : String) : List RelEntry :=
  let ms := db.charRels.filter (fun r => r.a == cname || r.b == cname)
  if ms.isEmpty then [⟨none, none, none⟩]
  else ms.map (fun r =>
    ⟨some (if r.a == cname then r.b else r.a), r.rtype, r.narrative_context⟩)

/-- The `char_info` profile block built for one matched character. -/
def char_info_of (db : QADb) (c : CharRec) : String :=
  let rels := relEntriesFor db (c.name.getD "")
  let base := "CHARACTER: " ++ c.name.getD "Unknown" ++ "\n" ++
    "Role: " ++ c.role.getD "Unknown" ++ "\n"
  let base2 :=
    if truthyOpt c.nationality then
      base ++ "Nationality: " ++ c.nationality.getD "" ++ "\n"
    else base
  let base3 :=
    if truthyOpt c.significance then
      if (c.significance.getD "").data.length > 200 then
        base2 ++ "Significance: " ++ pyTake 200 (c.significance.getD "") ++ "...\n"
      else
        base2 ++ "Significance: " ++ c.significance.getD "" ++ "\n"
    else base2
  let first3 := rels.take 3
  if !rels.isEmpty && first3.any (fun r => truthyOpt r.other) then
    base3 ++ "Key Relationships: " ++
      String.intercalate ", "
        ((first3.filter (fun r => truthyOpt r.other)).map (fun r => r.other.getD "")) ++
      "\n"
  else base3

/-- Strategy A, `character_profiles`: for each key name, the profile blocks of
all matching characters, ordered by name. -/
def character_profiles (question : String) (db : QADb) : List String :=
  (key_names question).flatMap (fun name =>
    (sortByLe (fun a b => decide ((a.name.getD "") ≤ (b.name.getD "")))
      (db.characters.filter (charNameMatches name))).map (char_info_of db))

/-- The group/role keywords triggering the broader character discovery. -/
def roleKeywords : List String :=
  ["officials", "americans", "turkish", "military", "diplomatic"]

/-- f-string rendering of a possibly-`null` property (Python prints `None`). -/
def fmtNull (o : Option String) : String := o.getD "None"

/-- Strategy B, the `OFFICIAL:` lines of the broader character discovery
(role/nationality keyword match, ordered by name, `LIMIT 6`). -/
def official_blocks (question : String) (db : QADb) : List String :=
  let ql := (pyLowerStr question).data
  if roleKeywords.any (fun t => containsSub (strL t) ql) then
    let matched := db.characters.filter (fun c =>
      optContains c.role "official" || optContains c.role "officer" ||
      optContains c.role "ambassador" || optContains c.role "minister" ||
      optContains c.nationality "american" || optContains c.nationality "turkish")
    ((sortByLe (fun a b => decide ((a.name.getD "") ≤ (b.name.getD ""))) matched).take 6).map
      (fun c => "OFFICIAL: " ++ fmtNull c.name ++ " - " ++ fmtNull c.role ++
        " (" ++ fmtNull c.nationality ++ ")")
  else []

/-- Strategy C retrieval: for each of the first three search words, the
episodes whose lowercased content contains the word, ordered by chapter
sequence, `LIMIT 3` per word. -/
def retrieved_episodes (question : String) (db : QADb) : List EpRec :=
  ((searchWords question).take 3).flatMap (fun w =>
    (sortByLe (fun a b => decide (a.chapter_sequence ≤ b.chapter_sequence))
      (db.episodes.filter (fun e =>
        containsSub (strL w) (pyLowerStr e.content).data))).take 3)

/-- A `{"name": ..., "content": ...}` dict of a large episode. -/
structure NamedEp where
  name : String
  content : String
deriving Repr, DecidableEq

/-- `large_episodes`: retrieved episodes with content longer than 2000
characters, in retrieval order. -/
def large_episodes (question : String) (db : QADb) : List NamedEp :=
  ((retrieved_episodes question db).filter
    (fun e => e.content.data.length > 2000)).map (fun e => ⟨e.name, e.content⟩)

/-- `small_episodes`: blocks for retrieved episodes of at most 2000
characters, included verbatim under a `FROM` header. -/
def small_episode_blocks (question : String) (db : QADb) : List String :=
  ((retrieved_episodes question db).filter
    (fun e => !(e.content.data.length > 2000))).map
    (fun e => "FROM " ++ e.name ++ ":\n" ++ e.content)

/-- The per-episode section of the batch compression prompt (each episode's
content truncated to 3000 characters). -/
def episodesText (episodes : List NamedEp) : String :=
  (episodes.enum.map (fun p =>
    "\n--- EPISODE " ++ toString (p.1 + 1) ++ ": " ++ p.2.name ++ " ---\n" ++
      pyTake 3000 p.2.content ++ "\n")).foldl (fun a b => a ++ b) ""

/-- The `batch_prompt` of `batch_compress_episodes`. -/
def batch_prompt_of (question : String) (episodes : List NamedEp) : String :=
  "QUESTION: " ++ question ++
  "\n\nExtract ONLY relevant information from these episodes to answer the question. For each episode, provide a focused summary of relevant content.\n" ++
  episodesText episodes ++
  "\n\nFor each episode, write: \"FROM [episode_name]: [relevant summary]\" \nFocus only on information that helps answer the question. Be concise but preserve key details."

/-- `HybridQASystem.batch_compress_episodes`: one model call for all given
episodes; on success the single reply block, on transport failure one
truncated block per episode. -/
def batch_compress_episodes (post : String → Option String)
    (episodes : List NamedEp) (question : String) : List String :=
  if episodes.isEmpty then []
  else
    match post (batch_prompt_of question episodes) with
    | some reply => [reply]
    | none => episodes.map (fun ep =>
        "FROM " ++ ep.name ++ " (truncated):\n" ++ pyTake 800 ep.content)

/-- The compressed blocks appended to the context: present only when some
large episode exists, and fed only the first four large episodes. -/
def compressed_blocks (post : String → Option String) (question : String)
    (db : QADb) : List String :=
  if (large_episodes question db).isEmpty then []
  else batch_compress_episodes post ((large_episodes question db).take 4) question

/-- The `WHERE` clause of the event query. -/
def eventMatches (w : String) (ev : EvRec) : Bool :=
  optContains ev.name w || optContains ev.narrative_function w

/-- The `EVENT:` block built for one matched event. -/
def event_info_of (ev : EvRec) : String :=
  let base := "EVENT: " ++ ev.name.getD "Unknown" ++ "\n"
  let b2 := if truthyOpt ev.narrative_function then
      base ++ "Function: " ++ ev.narrative_function.getD "" ++ "\n"
    else base
  let b3 := if truthyOpt ev.participants then
      b2 ++ "Participants: " ++ ev.participants.getD "" ++ "\n"
    else b2
  if truthyOpt ev.consequences then
    b3 ++ "Consequences: " ++ ev.consequences.getD "" ++ "\n"
  else b3

/-- Strategy D, the event blocks: for each of the first two search words, the
matching events, `LIMIT 2` per word. -/
def event_blocks (question : String) (db : QADb) : List String :=
  ((searchWords question).take 2).flatMap (fun w =>
    ((db.events.filter (eventMatches w)).take 2).map event_info_of)

/-- The `context_parts` list of `search_manually`, in the exact order the
source extends it: character profiles, officials, small episodes, compressed
blocks, events. -/
def context_parts (post : String → Option String) (question : String)
    (db : QADb) : List String :=
  character_profiles question db ++ official_blocks question db ++
    small_episode_blocks question db ++ compressed_blocks post question db ++
    event_blocks question db

/-- The result of `search_manually`, with the argument lists of its
`batch_compress_episodes` invocations recorded for auditing. -/
structure SearchResult where
  parts : List String
  compressArgs : List (List NamedEp)
  final_context : String
deriving Repr

/-- `HybridQASystem.search_manually`: assemble the context parts and join
them with blank lines; compression is invoked once, on the first four large
episodes, iff a large episode was retrieved. -/
def search_manually (post : String → Option String) (question : String)
    (db : QADb) : SearchResult :=
  let parts := context_parts post question db
  let args :=
    if (large_episodes question db).isEmpty then []
    else [(large_episodes question db).take 4]
  ⟨parts, args, String.intercalate "\n\n" parts⟩

/-- `search_with_graphiti` always yields `None`: `use_graphiti` is
unconditionally `False` in `__init__`. -/
def search_with_graphiti : Option String := none

/-- The not-found message of `answer_question`. -/
def notFoundMsg : String :=
  "I couldn\x27t find relevant information to answer your question."

/-- The synthesis prompt of `answer_question`. -/
def synthesis_prompt (question context : String) : String :=
  "Question: " ++ question ++ "\n\nHistorical sources and context:\n\n" ++
  context ++
  "\n\nAnswer this question by weaving together the information from these sources into a clear, engaging narrative. Write in flowing prose that tells the historical story naturally, avoiding bullet points or numbered lists. If there\x27s an \"AUTHORITATIVE CHARACTER PROFILE\" in the sources, prioritize that biographical information over episode excerpts."

/-- `HybridQASystem.answer_question`: try Graphiti (always `None`), fall back
to the manual search; an empty (falsy) context short-circuits with the
not-found message before any synthesis call.  Returns the answer and the
number of synthesis model calls made. -/
def answer_question (post : String → Option String) (ollama : String → String)
    (question : String) (db : QADb) : String × Nat :=
  let context :=
    match search_with_graphiti with
    | some c => c
    | none => (search_manually post question db).final_context
  if context == "" then (notFoundMsg, 0)
  else (ollama (synthesis_prompt question context), 1)

/-- The accumulation loop emits every paragraph it was given, in order, each
into exactly one chunk: flattening the chunks gives back `cur ++ ps`. -/
theorem chunkLoop_flatten (target : Nat) (ps : List (List Char)) :
    ∀ (cur : List (List Char)) (cw : Nat),
      (chunkLoop target ps cur cw).flatten = cur ++ ps := by
  induction ps with
  | nil =>
    intro cur cw
    cases cur <;> simp [chunkLoop]
  | cons p ps ih =>
    intro cur cw
    by_cases h : cw + wordCount p > target ∧ cur ≠ []
    · simp [chunkLoop, h, ih]
    · simp [chunkLoop, h, ih]

/-- Every chunk the accumulation loop emits is non-empty. -/
theorem chunkLoop_mem_ne_nil (target : Nat) (ps : List (List Char)) :
    ∀ (cur : List (List Char)) (cw : Nat) (c : List (List Char)),
      c ∈ chunkLoop target ps cur cw → c ≠ [] := by
  induction ps with
  | nil =>
    intro cur cw c hc
    cases cur with
    | nil => simp [chunkLoop] at hc
    | cons x xs =>
      simp [chunkLoop] at hc
      simp [hc]
  | cons p ps ih =>
    intro cur cw c hc
    by_cases h : cw + wordCount p > target ∧ cur ≠ []
    · simp only [chunkLoop, if_pos h, List.mem_cons] at hc
      rcases hc with rfl | hc
      · exact h.2
      · exact ih _ _ _ hc
    · simp only [chunkLoop, if_neg h] at hc
      exact ih _ _ _ hc

/-- Flattening a non-empty list of non-empty chunks is non-empty. -/
theorem flatten_ne_nil_of (L : List (List (List Char))) (hL : L ≠ [])
    (h : ∀ c ∈ L, c ≠ []) : L.flatten ≠ [] := by
  cases L with
  | nil => exact absurd rfl hL
  | cons c rest =>
    have hc := h c (by simp)
    cases c with
    | nil => exact absurd rfl hc
    | cons p ps => simp

/-- Joining a concatenation of two non-empty paragraph lists inserts one blank
line between their joins. -/
theorem joinNN_append (a b : List (List Char)) (ha : a ≠ []) (hb : b ≠ []) :
    joinNN (a ++ b) = joinNN a ++ '\n' :: '\n' :: joinNN b := by
  induction a with
  | nil => exact absurd rfl ha
  | cons x a ih =>
    cases a with
    | nil =>
      cases b with
      | nil => exact absurd rfl hb
      | cons y ys => simp [joinNN]
    | cons z zs =>
      have h2 := ih (List.cons_ne_nil z zs)
      calc joinNN ((x :: z :: zs) ++ b)
          = joinNN (x :: z :: (zs ++ b)) := by simp
        _ = x ++ '\n' :: '\n' :: joinNN (z :: (zs ++ b)) := by simp [joinNN]
        _ = x ++ '\n' :: '\n' :: joinNN ((z :: zs) ++ b) := by simp
        _ = x ++ '\n' :: '\n' :: (joinNN (z :: zs) ++ '\n' :: '\n' :: joinNN b) := by
              rw [h2]
        _ = joinNN (x :: z :: zs) ++ '\n' :: '\n' :: joinNN b := by simp [joinNN]

/-- Joining the per-chunk joins equals joining the flattened paragraph list,
for non-empty chunks: text content is independent of the chunking. -/
theorem joinNN_map_flatten (L : List (List (List Char))) (h : ∀ c ∈ L, c ≠ []) :
    joinNN (L.map joinNN) = joinNN L.flatten := by
  induction L with
  | nil => simp [joinNN]
  | cons c rest ih =>
    have hc : c ≠ [] := h c (by simp)
    have hrest : ∀ x ∈ rest, x ≠ [] := fun x hx => h x (by simp [hx])
    cases rest with
    | nil => simp [joinNN]
    | cons d ds =>
      have hjoin : (d :: ds).flatten ≠ [] :=
        flatten_ne_nil_of _ (by simp) hrest
      calc joinNN ((c :: d :: ds).map joinNN)
          = joinNN (joinNN c :: joinNN d :: ds.map joinNN) := by simp
        _ = joinNN c ++ '\n' :: '\n' :: joinNN ((d :: ds).map joinNN) := by simp [joinNN]
        _ = joinNN c ++ '\n' :: '\n' :: joinNN ((d :: ds).flatten) := by rw [ih hrest]
        _ = joinNN (c ++ (d :: ds).flatten) := (joinNN_append c _ hc hjoin).symm
        _ = joinNN ((c :: d :: ds).flatten) := by simp

/-- The episode records of `split_into_episodes` carry exactly the chunk
contents of the shared accumulation loop at target 1000. -/
theorem episodeLoop_contents (μ : Type) (f : List Char) (m : μ)
    (ps : List (List Char)) :
    ∀ (cur : List (List Char)) (cw : Nat),
      (episodeLoop μ f m ps cur cw).map (fun e => e.content)
        = (chunkLoop 1000 ps cur cw).map joinNN := by
  induction ps with
  | nil =>
    intro cur cw
    cases cur <;> simp [episodeLoop, chunkLoop]
  | cons p ps ih =>
    intro cur cw
    by_cases h : cw + wordCount p > 1000 ∧ cur ≠ []
    · simp [episodeLoop, chunkLoop, h, ih]
    · simp [episodeLoop, chunkLoop, h, ih]

/-- C4: concatenating in order all the chunks produced by the Chunker
reproduces the document's non-empty paragraphs in their original order, with
no paragraph split across two chunks — each chunk is a block of whole
paragraphs and flattening the blocks gives back exactly the paragraph list,
for `split_for_narrative_analysis` (target 1500) and `split_into_episodes`
(target 1000) alike. -/
theorem chunker_covers_paragraphs (content : List Char) :
    (chunkLoop 1500 (paragraphsOf content) [] 0).flatten = paragraphsOf content
    ∧ joinNN (split_for_narrative_analysis content) = joinNN (paragraphsOf content)
    ∧ (chunkLoop 1000 (paragraphsOf content) [] 0).flatten = paragraphsOf content
    ∧ ∀ (μ : Type) (filename : List Char) (metadata : μ),
        joinNN ((split_into_episodes μ content filename metadata).map
            (fun e => e.content))
          = joinNN (paragraphsOf content) := by
  have h1500 : (chunkLoop 1500 (paragraphsOf content) [] 0).flatten
      = paragraphsOf content := by
    simpa using chunkLoop_flatten 1500 (paragraphsOf content) [] 0
  have h1000 : (chunkLoop 1000 (paragraphsOf content) [] 0).flatten
      = paragraphsOf content := by
    simpa using chunkLoop_flatten 1000 (paragraphsOf content) [] 0
  refine ⟨h1500, ?_, h1000, ?_⟩
  · unfold split_for_narrative_analysis
    rw [joinNN_map_flatten _ (fun c hc => chunkLoop_mem_ne_nil _ _ _ _ c hc), h1500]
  · intro μ filename metadata
    unfold split_into_episodes
    rw [episodeLoop_contents,
      joinNN_map_flatten _ (fun c hc => chunkLoop_mem_ne_nil _ _ _ _ c hc), h1000]

/-- Any record list accepted by `collectKey` contains only dicts with a
`name` field. -/
theorem collectKey_valid (parsed : Json) (key : List Char) (l : List Json)
    (h : collectKey parsed key = some l) :
    ∀ item ∈ l, entityItemHasName item = true := by
  unfold collectKey at h
  cases hin : pyInJson key parsed with
  | none => rw [hin] at h; cases h
  | some b =>
    rw [hin] at h
    cases b with
    | false =>
      cases h
      intro item hi
      cases hi
    | true =>
      cases hidx : jsonIndexStr parsed key with
      | none => rw [hidx] at h; cases h
      | some j =>
        rw [hidx] at h
        cases j with
        | arr items =>
          cases h
          intro item hi
          exact (List.mem_filter.mp hi).2
        | null => cases h; intro item hi; cases hi
        | bool b => cases h; intro item hi; cases hi
        | num n => cases h; intro item hi; cases hi
        | str s => cases h; intro item hi; cases hi
        | obj fs => cases h; intro item hi; cases hi

/-- The six-key empty dict is a valid (empty) record set. -/
theorem validEntityDict_emptyResult6 : validEntityDict emptyResult6 := by
  intro p hp item hi
  simp only [emptyResult6, List.mem_cons, List.not_mem_nil, or_false] at hp
  rcases hp with rfl | rfl | rfl | rfl | rfl | rfl <;> cases hi

/-- C3: a model response holding both `'{'` and `'}'` (as any JSON-like
object text with one unbalanced closing delimiter does) never makes
`extract_narrative_entities` raise: it returns a record set, and every record
in it is a dict with a `name` — a valid partial record set or an empty one —
so the ingestion loop continues with the next chunk. -/
theorem extractor_degrades_gracefully (response : List Char)
    (h1 : response.contains '{' = true) (h2 : response.contains '}' = true) :
    ∃ r, extract_narrative_entities response = some r ∧ validEntityDict r := by
  unfold extract_narrative_entities
  rw [h1, h2]
  simp only [Bool.and_self, if_true]
  set js := (if containsSub (strL "```json") response then
      match pyFindSub (strL "```json") response 0 with
      | some idx =>
        match pyFindSub (strL "```") response (idx + 7) with
        | some stop => pyStrip (sliceList response (idx + 7) stop)
        | none => extract_first_complete_json response
      | none => extract_first_complete_json response
    else extract_first_complete_json response) with hjs
  cases hp : pyJsonLoads js with
  | none => exact ⟨emptyResult6, rfl, validEntityDict_emptyResult6⟩
  | some parsed =>
    dsimp only
    cases hc : collectKey parsed (strL "characters") with
    | none => exact ⟨emptyResult6, rfl, validEntityDict_emptyResult6⟩
    | some cs =>
      cases hl : collectKey parsed (strL "locations") with
      | none => exact ⟨emptyResult6, rfl, validEntityDict_emptyResult6⟩
      | some ls =>
        cases he : collectKey parsed (strL "events") with
        | none => exact ⟨emptyResult6, rfl, validEntityDict_emptyResult6⟩
        | some es =>
          refine ⟨_, rfl, ?_⟩
          intro p hp item hi
          simp only [List.mem_cons, List.not_mem_nil, or_false] at hp
          rcases hp with rfl | rfl | rfl
          · exact collectKey_valid parsed _ cs hc item hi
          · exact collectKey_valid parsed _ ls hl item hi
          · exact collectKey_valid parsed _ es he item hi

/-- A concrete model reply: a valid JSON object followed by one unbalanced
extra closing brace. -/
def c3response : List Char :=
  ['{'] ++ strL "\"characters\": [" ++ ['{'] ++ strL "\"name\": \"Jennings\"" ++
    ['}'] ++ strL "]" ++ ['}', '}']

/-- Witness for C3 at `c3response` (which has one unbalanced closing brace:
two `'{'` and three `'}'`). -/
theorem extractor_degrades_gracefully_witness :
    c3response.contains '{' = true ∧ c3response.contains '}' = true ∧
    (c3response.count '}' = c3response.count '{' + 1) ∧
    ∃ r, extract_narrative_entities c3response = some r ∧ validEntityDict r :=
  ⟨by decide, by decide, by decide,
    extractor_degrades_gracefully c3response (by decide) (by decide)⟩

/-- C9: a model reply with no `'{'` or no `'}'` makes
`extract_narrative_entities` fall off the end of its `try` block and return
`None`, not the empty-entity dict of the decode-failure path, so its result
is not always a record set. -/
theorem extract_entities_none_without_brace (response : List Char)
    (h : response.contains '{' = false ∨ response.contains '}' = false) :
    extract_narrative_entities response = none := by
  have hcond : (response.contains '{' && response.contains '}') = false := by
    rcases h with h | h
    · rw [h]; exact Bool.false_and _
    · rw [h]; exact Bool.and_false _
  unfold extract_narrative_entities
  rw [hcond]
  simp

/-- Witness for C9: a braceless reply yields `none`. -/
theorem extract_entities_none_without_brace_witness :
    (strL "no json here at all").contains '{' = false ∧
    extract_narrative_entities (strL "no json here at all") = none :=
  ⟨by decide, extract_entities_none_without_brace _ (Or.inl (by decide))⟩

/-! ### Graph store lemmas -/

/-- Merging a `MENTIONS` edge never touches the node table. -/
theorem mergeMentionEdge_nodes (s : Store) (a b : Nat)
    (r : List (String × Value)) : (mergeMentionEdge s a b r).nodes = s.nodes := by
  unfold mergeMentionEdge
  dsimp only
  split <;> rfl

/-- The inner `MENTIONS` fold never touches the node table. -/
theorem mention_fold_inner_nodes (rprops : List (String × Value)) (entId : Nat)
    (epIds : List Nat) :
    ∀ st : Store,
      (epIds.foldl (fun acc2 epId => mergeMentionEdge acc2 epId entId rprops) st).nodes
        = st.nodes := by
  induction epIds with
  | nil => intro st; rfl
  | cons e es ih =>
    intro st
    rw [List.foldl_cons, ih, mergeMentionEdge_nodes]

/-- The nested `MENTIONS` folds never touch the node table. -/
theorem mention_folds_nodes (rprops : List (String × Value))
    (epIds entIds : List Nat) :
    ∀ st : Store,
      (entIds.foldl (fun acc entId =>
        epIds.foldl (fun acc2 epId => mergeMentionEdge acc2 epId entId rprops) acc)
          st).nodes = st.nodes := by
  induction entIds with
  | nil => intro st; rfl
  | cons e es ih =>
    intro st
    rw [List.foldl_cons, ih, mention_fold_inner_nodes]

/-- Overwriting key `k` leaves `find?` for a different key unchanged. -/
theorem find?_setKey_map (props : List (String × Value)) (k : String) (v : Value)
    (k' : String) (h : k' ≠ k) :
    ((props.map (fun p => if p.1 == k then (k, v) else p)).find?
        (fun p => p.1 == k'))
      = props.find? (fun p => p.1 == k') := by
  induction props with
  | nil => rfl
  | cons p ps ih =>
    by_cases hp : (p.1 == k) = true
    · have hpk : p.1 = k := by simpa using hp
      rw [List.map_cons, if_pos hp,
        List.find?_cons_of_neg _ (by simp only [beq_iff_eq]; exact Ne.symm h),
        List.find?_cons_of_neg _
          (by rw [hpk]; simp only [beq_iff_eq]; exact Ne.symm h)]
      exact ih
    · simp only [List.map_cons, if_neg hp, List.find?]
      cases hpk' : (p.1 == k') with
      | true => rfl
      | false => exact ih

/-- Appending a binding for key `k` leaves `find?` for a different key
unchanged. -/
theorem find?_append_single_ne (props : List (String × Value)) (k : String)
    (v : Value) (k' : String) (h : k' ≠ k) :
    ((props ++ [(k, v)]).find? (fun p => p.1 == k'))
      = props.find? (fun p => p.1 == k') := by
  induction props with
  | nil =>
    simp only [List.nil_append, List.find?]
    rw [show ((k, v).1 == k') = false from by
      simp only [beq_eq_false_iff_ne]; exact Ne.symm h]
  | cons p ps ih =>
    simp only [List.cons_append, List.find?]
    cases hpk' : (p.1 == k') with
    | true => rfl
    | false => exact ih

/-- `SET`-ting key `k` does not change the lookup of a different key. -/
theorem lookupProp_setProp_ne (props : List (String × Value)) (k : String)
    (v : Value) (k' : String) (h : k' ≠ k) :
    lookupProp (setProp props k v) k' = lookupProp props k' := by
  unfold setProp lookupProp
  split
  · rw [find?_setKey_map props k v k' h]
  · rw [find?_append_single_ne props k v k' h]

/-- `SET`-ting keys other than `k'` does not change the lookup of `k'`. -/
theorem lookupProp_setProps_ne (upd : List (String × Value)) (k' : String)
    (h : ∀ kv ∈ upd, kv.1 ≠ k') :
    ∀ props, lookupProp (setProps props upd) k' = lookupProp props k' := by
  induction upd with
  | nil => intro props; rfl
  | cons kv rest ih =>
    intro props
    have step : setProps props (kv :: rest) = setProps (setProp props kv.1 kv.2) rest := rfl
    rw [step, ih (fun x hx => h x (List.mem_cons_of_mem kv hx)),
      lookupProp_setProp_ne props kv.1 kv.2 k'
        (Ne.symm (h kv (List.mem_cons_self kv rest)))]

/-- The `$properties` map prepared for an entity never carries the `name`
key (the source filters it out). -/
theorem properties_no_name (entity : PyDict) :
    ∀ kv ∈ (entity.filter (fun kv => kv.1 != "name")).map
        (fun kv => (kv.1, Value.str kv.2)),
      kv.1 ≠ "name" := by
  intro kv hkv
  simp only [List.mem_map, List.mem_filter] at hkv
  obtain ⟨a, ⟨_, hne⟩, rfl⟩ := hkv
  simpa using hne

/-- The entity `SET` clause keeps the node matching its own merge pattern:
labels are untouched and the `name` property is never overwritten. -/
theorem entitySetter_preserves_match (L : List String) (nm : String)
    (entity : PyDict) (category : String) (now ndepth : Nat) (n : Node)
    (hm : nodeMatches L [("name", Value.str nm)] n = true) :
    nodeMatches L [("name", Value.str nm)]
      (entitySetter
        ((entity.filter (fun kv => kv.1 != "name")).map
          (fun kv => (kv.1, Value.str kv.2)))
        category now ndepth n) = true := by
  unfold nodeMatches propsMatch at hm ⊢
  unfold entitySetter
  simp only [Bool.and_eq_true] at hm ⊢
  refine ⟨hm.1, ?_⟩
  have h1 : ∀ kv ∈ [("category", Value.str category),
      ("last_updated", Value.time now), ("narrative_depth", Value.int (ndepth : Int))],
      kv.1 ≠ "name" := by
    intro kv hkv
    simp only [List.mem_cons, List.not_mem_nil, or_false] at hkv
    rcases hkv with rfl | rfl | rfl <;> simp
  have hl := hm.2
  simp only [List.all_cons, List.all_nil, Bool.and_true] at hl ⊢
  rw [lookupProp_setProps_ne _ "name" h1,
    lookupProp_setProps_ne _ "name" (properties_no_name entity)]
  exact hl

/-- Updating exactly the matching nodes with a match-preserving function does
not change how many nodes match. -/
theorem filter_length_map_upsert (nodes : List Node) (P : Node → Bool)
    (f : Node → Node) (hpres : ∀ n, P n = true → P (f n) = true) :
    ((nodes.map (fun n => if P n then f n else n)).filter P).length
      = (nodes.filter P).length := by
  induction nodes with
  | nil => rfl
  | cons n ns ih =>
    by_cases hn : P n = true
    · simp [List.filter_cons, hpres n hn, hn, ih]
    · have hn' : P n = false := by simpa using hn
      simp [List.filter_cons, hn', ih]

/-- Node `MERGE` yields exactly one matching node when none matched, and
keeps the matching count otherwise (provided the `SET` clause preserves the
pattern, which the entity setter does). -/
theorem mergeNode_count (s : Store) (L : List String)
    (pat : List (String × Value)) (setter : Node → Node)
    (hpres : ∀ n, nodeMatches L pat n = true → nodeMatches L pat (setter n) = true)
    (hnew : nodeMatches L pat
      (setter { id := s.nextId, labels := L, props := pat }) = true) :
    ((mergeNode s L pat setter).1.nodes.filter (nodeMatches L pat)).length
      = if (s.nodes.filter (nodeMatches L pat)).length = 0 then 1
        else (s.nodes.filter (nodeMatches L pat)).length := by
  unfold mergeNode
  by_cases h : (s.nodes.filter (nodeMatches L pat)).isEmpty
  · have hnil : s.nodes.filter (nodeMatches L pat) = [] := by
      simpa [List.isEmpty_iff] using h
    simp only [h, if_true]
    simp [List.filter_append, hnil, hnew]
  · have hne : s.nodes.filter (nodeMatches L pat) ≠ [] := by
      simpa [List.isEmpty_iff] using h
    have hlen : (s.nodes.filter (nodeMatches L pat)).length ≠ 0 := by
      simpa [List.length_eq_zero] using hne
    simp only [h, if_false]
    rw [if_neg hlen]
    exact filter_length_map_upsert s.nodes _ setter hpres

/-- A freshly created node carrying exactly the merge pattern matches it. -/
theorem nodeMatches_fresh (L : List String) (nm : String) (i : Nat) :
    nodeMatches L [("name", Value.str nm)]
      { id := i, labels := L, props := [("name", Value.str nm)] } = true := by
  unfold nodeMatches propsMatch lookupProp
  simp [List.all_eq_true, List.find?]

/-- The episode node created by `create_episode` never matches an entity
pattern, so entity counts are unchanged. -/
theorem countEntityNodes_create_episode (ep : EpisodeData) (ci : ChapterInfo)
    (ents : List (String × List PyDict)) (now : Nat) (s : Store)
    (c nm : String) :
    countEntityNodes (create_episode ep ci ents now s) c nm
      = countEntityNodes s c nm := by
  have hep : ∀ n : Node, n.labels = ["Episode", "Chapter"] →
      nodeMatches ["Entity", c] [("name", Value.str nm)] n = false := by
    intro n hn
    unfold nodeMatches
    rw [List.all_cons, hn,
      show (["Episode", "Chapter"] : List String).contains "Entity" = false from by
        decide]
    rfl
  unfold countEntityNodes create_episode
  dsimp only
  rw [List.filter_append]
  simp [hep]

/-- `store_one_entity` creates one matching node when none matched and never
duplicates an existing match. -/
theorem store_one_entity_count (epname category : String) (entity : PyDict)
    (now : Nat) (s : Store) :
    countEntityNodes (store_one_entity epname category entity now s)
        (categoryLabel category) (get_entity_key entity category)
      = if countEntityNodes s (categoryLabel category)
            (get_entity_key entity category) = 0
        then 1
        else countEntityNodes s (categoryLabel category)
          (get_entity_key entity category) := by
  unfold store_one_entity countEntityNodes
  dsimp only
  rw [mention_folds_nodes]
  exact mergeNode_count s ["Entity", categoryLabel category]
    [("name", Value.str (get_entity_key entity category))] _
    (fun n hm => entitySetter_preserves_match _ _ entity _ now _ n hm)
    (entitySetter_preserves_match _ _ entity _ now _ _
      (nodeMatches_fresh _ _ _))

/-- C5: upserting the same entity name and category twice (two extraction
passes over the same record, at any two write times) resolves to exactly one
`Entity` node of that category and name, because the entity `MERGE` pattern
is `(:Entity:CategoryLabel {name})`. -/
theorem entity_upsert_single_node
    (s : Store) (ep1 ep2 : EpisodeData) (ci1 ci2 : ChapterInfo) (t1 t2 : Nat)
    (category : String) (entity : PyDict)
    (hkey : get_entity_key entity category ≠ "")
    (hzero : countEntityNodes s (categoryLabel category)
      (get_entity_key entity category) = 0) :
    countEntityNodes
      (store_narrative_data ep2 [(category, [entity])] [] ci2 t2
        (store_narrative_data ep1 [(category, [entity])] [] ci1 t1 s))
      (categoryLabel category) (get_entity_key entity category) = 1 := by
  have hguard : (get_entity_key entity category != "") = true := by
    simpa using hkey
  have hstep : ∀ (ep : EpisodeData) (ci : ChapterInfo) (t : Nat) (st : Store),
      store_narrative_data ep [(category, [entity])] [] ci t st
        = store_one_entity ep.name category entity t
            (create_episode ep ci [(category, [entity])] t st) := by
    intro ep ci t st
    unfold store_narrative_data store_relationships store_entities
      store_entities_category
    dsimp only [List.foldl]
    rw [if_pos hguard]
  rw [hstep, hstep, store_one_entity_count, countEntityNodes_create_episode,
    store_one_entity_count, countEntityNodes_create_episode, hzero]
  simp

/-- Inputs for the C5 witness: an empty store and a character record stored
twice, at write times 0 and 1. -/
def c5store : Store := ⟨[], [], 0⟩

/-- The character record of the C5 witness. -/
def c5entity : PyDict := [("name", "Jennings"), ("role", "YMCA director")]

/-- First episode of the C5 witness. -/
def c5ep1 : EpisodeData := ⟨"Ep A", "text a", "a.txt", 2⟩

/-- Second episode of the C5 witness. -/
def c5ep2 : EpisodeData := ⟨"Ep B", "text b", "b.txt", 2⟩

/-- Chapter of the C5 witness. -/
def c5ci : ChapterInfo := ⟨1, "Chapter One", 1⟩

/-- Witness for C5 at a concrete store and record. -/
theorem entity_upsert_single_node_witness :
    get_entity_key c5entity "characters" ≠ "" ∧
    countEntityNodes c5store (categoryLabel "characters")
      (get_entity_key c5entity "characters") = 0 ∧
    countEntityNodes
      (store_narrative_data c5ep2 [("characters", [c5entity])] [] c5ci 1
        (store_narrative_data c5ep1 [("characters", [c5entity])] [] c5ci 0 c5store))
      (categoryLabel "characters") (get_entity_key c5entity "characters") = 1 :=
  ⟨by decide, by decide,
    entity_upsert_single_node c5store c5ep1 c5ep2 c5ci c5ci 0 1 "characters"
      c5entity (by decide) (by decide)⟩

/-- A store already holding the two endpoint entities of the C1
counterexample. -/
def c1store : Store :=
  ⟨[⟨0, ["Entity", "Character"], [("name", Value.str "Jennings")]⟩,
    ⟨1, ["Entity", "Location"], [("name", Value.str "Smyrna")]⟩], [], 2⟩

/-- The relationship record stored twice in the C1 counterexample. -/
def c1rel : PyDict :=
  [("from", "Jennings"), ("to", "Smyrna"), ("relationship_type", "RESCUED")]

/-- Episode of the C1 counterexample. -/
def c1ep : EpisodeData := ⟨"Ep C", "text c", "c.txt", 2⟩

/-- Chapter of the C1 counterexample. -/
def c1ci : ChapterInfo := ⟨1, "Chapter One", 1⟩

/-- Counterexample to C1: both endpoint entities exist, and the very same
relationship record with identical attributes is stored twice — once at
transaction time 0 and once at time 1, as any ingestion re-run does.  The
result is two `RELATES_TO` edges of that type between the pair, not one: the
`MERGE` pattern includes `created_at: datetime()` (and every other
attribute), so the merge key is not `(from, to, type)`. -/
theorem relationship_remerge_duplicates_counterexample :
    countRelatesTo
      (store_narrative_data c1ep [] [c1rel] c1ci 1
        (store_narrative_data c1ep [] [c1rel] c1ci 0 c1store))
      "Jennings" "Smyrna" "RESCUED" ≠ 1 ∧
    countRelatesTo
      (store_narrative_data c1ep [] [c1rel] c1ci 1
        (store_narrative_data c1ep [] [c1rel] c1ci 0 c1store))
      "Jennings" "Smyrna" "RESCUED" = 2 :=
  ⟨by decide, by decide⟩

/-- Merging a relationship edge never touches the node table. -/
theorem mergeRelEdge_nodes (s : Store) (a b : Nat)
    (p : List (String × Value)) : (mergeRelEdge s a b p).nodes = s.nodes := by
  unfold mergeRelEdge
  split <;> rfl

/-- Edge existence depends only on the edge table. -/
theorem edgeExistsB_congr (s t : Store) (h : s.edges = t.edges) (a b : Nat)
    (p : List (String × Value)) : edgeExistsB s a b p = edgeExistsB t a b p := by
  unfold edgeExistsB
  rw [h]

/-- The relationship `MERGE` pattern matches itself (its keys are distinct). -/
theorem propsMatch_relPropMap_self (rel : PyDict) (title : String) (now : Nat) :
    propsMatch (relPropMap rel title now) (relPropMap rel title now) = true := by
  simp [relPropMap, propsMatch, lookupProp, List.find?]

/-- After an edge `MERGE`, a matching edge exists (provided the pattern
matches itself). -/
theorem mergeRelEdge_ensures (s : Store) (a b : Nat)
    (p : List (String × Value)) (hself : propsMatch p p = true) :
    edgeExistsB (mergeRelEdge s a b p) a b p = true := by
  unfold mergeRelEdge
  by_cases h : edgeExistsB s a b p
  · rw [if_pos h]
    exact h
  · rw [if_neg h]
    unfold edgeExistsB
    simp [List.any_append, hself]

/-- An edge `MERGE` preserves any already-existing match. -/
theorem mergeRelEdge_mono (s : Store) (a b : Nat) (p : List (String × Value))
    (x y : Nat) (q : List (String × Value))
    (h : edgeExistsB s x y q = true) :
    edgeExistsB (mergeRelEdge s a b p) x y q = true := by
  unfold mergeRelEdge
  split
  · exact h
  · unfold edgeExistsB at h ⊢
    simp only [List.any_append, h, Bool.true_or]

/-- An edge `MERGE` whose match already exists is a no-op. -/
theorem mergeRelEdge_noop (s : Store) (a b : Nat) (p : List (String × Value))
    (h : edgeExistsB s a b p = true) : mergeRelEdge s a b p = s := by
  unfold mergeRelEdge
  rw [if_pos h]

/-- The inner relationship fold never touches the node table. -/
theorem relFold_inner_nodes (p : List (String × Value)) (a : Nat)
    (B : List Nat) :
    ∀ s : Store,
      (B.foldl (fun acc2 bId => mergeRelEdge acc2 a bId p) s).nodes = s.nodes := by
  induction B with
  | nil => intro s; rfl
  | cons b bs ih =>
    intro s
    rw [List.foldl_cons, ih, mergeRelEdge_nodes]

/-- The nested relationship folds never touch the node table. -/
theorem relFold_nodes (p : List (String × Value)) (A B : List Nat) :
    ∀ s : Store,
      (A.foldl (fun acc aId =>
        B.foldl (fun acc2 bId => mergeRelEdge acc2 aId bId p) acc) s).nodes
        = s.nodes := by
  induction A with
  | nil => intro s; rfl
  | cons a as ih =>
    intro s
    rw [List.foldl_cons, ih, relFold_inner_nodes]

/-- The inner relationship fold preserves any existing match. -/
theorem relFold_inner_mono (p : List (String × Value)) (a : Nat) (B : List Nat)
    (x y : Nat) (q : List (String × Value)) :
    ∀ s : Store, edgeExistsB s x y q = true →
      edgeExistsB (B.foldl (fun acc2 bId => mergeRelEdge acc2 a bId p) s) x y q
        = true := by
  induction B with
  | nil => intro s h; exact h
  | cons b bs ih =>
    intro s h
    rw [List.foldl_cons]
    exact ih _ (mergeRelEdge_mono s a b p x y q h)

/-- The nested relationship folds preserve any existing match. -/
theorem relFold_mono (p : List (String × Value)) (A B : List Nat)
    (x y : Nat) (q : List (String × Value)) :
    ∀ s : Store, edgeExistsB s x y q = true →
      edgeExistsB
        (A.foldl (fun acc aId =>
          B.foldl (fun acc2 bId => mergeRelEdge acc2 aId bId p) acc) s) x y q
        = true := by
  induction A with
  | nil => intro s h; exact h
  | cons a as ih =>
    intro s h
    rw [List.foldl_cons]
    exact ih _ (relFold_inner_mono p a B x y q s h)

/-- After the inner fold, a matching edge exists for every target id. -/
theorem relFold_inner_ensures (p : List (String × Value)) (a : Nat)
    (B : List Nat) (hself : propsMatch p p = true) :
    ∀ s : Store, ∀ b ∈ B,
      edgeExistsB (B.foldl (fun acc2 bId => mergeRelEdge acc2 a bId p) s) a b p
        = true := by
  induction B with
  | nil => intro s b hb; cases hb
  | cons c cs ih =>
    intro s b hb
    rw [List.foldl_cons]
    rcases List.mem_cons.mp hb with rfl | hb
    · exact relFold_inner_mono p a cs a b p _ (mergeRelEdge_ensures s a b p hself)
    · exact ih _ b hb

/-- After the nested folds, a matching edge exists for every source/target
pair. -/
theorem relFold_ensures (p : List (String × Value)) (A B : List Nat)
    (hself : propsMatch p p = true) :
    ∀ s : Store, ∀ a ∈ A, ∀ b ∈ B,
      edgeExistsB
        (A.foldl (fun acc aId =>
          B.foldl (fun acc2 bId => mergeRelEdge acc2 aId bId p) acc) s) a b p
        = true := by
  induction A with
  | nil => intro s a ha; cases ha
  | cons c cs ih =>
    intro s a ha b hb
    rw [List.foldl_cons]
    rcases List.mem_cons.mp ha with rfl | ha
    · exact relFold_mono p cs B a b p _ (relFold_inner_ensures p a B hself s b hb)
    · exact ih _ a ha b hb

/-- The inner fold is a no-op when every match already exists. -/
theorem relFold_inner_noop (p : List (String × Value)) (a : Nat) (B : List Nat) :
    ∀ s : Store, (∀ b ∈ B, edgeExistsB s a b p = true) →
      B.foldl (fun acc2 bId => mergeRelEdge acc2 a bId p) s = s := by
  induction B with
  | nil => intro s _; rfl
  | cons c cs ih =>
    intro s h
    rw [List.foldl_cons, mergeRelEdge_noop s a c p (h c (by simp))]
    exact ih s (fun b hb => h b (by simp [hb]))

/-- The nested folds are a no-op when every match already exists. -/
theorem relFold_noop (p : List (String × Value)) (A B : List Nat) :
    ∀ s : Store, (∀ a ∈ A, ∀ b ∈ B, edgeExistsB s a b p = true) →
      A.foldl (fun acc aId =>
        B.foldl (fun acc2 bId => mergeRelEdge acc2 aId bId p) acc) s = s := by
  induction A with
  | nil => intro s _; rfl
  | cons c cs ih =>
    intro s h
    rw [List.foldl_cons, relFold_inner_noop p c B s (fun b hb => h c (by simp) b hb)]
    exact ih s (fun a ha b hb => h a (by simp [ha]) b hb)

/-- `create_episode` leaves the edge table untouched. -/
theorem create_episode_edges (ep : EpisodeData) (ci : ChapterInfo)
    (ents : List (String × List PyDict)) (now : Nat) (s : Store) :
    (create_episode ep ci ents now s).edges = s.edges := rfl

/-- The episode node never matches an `(:Entity {name})` `MATCH` pattern, so
the endpoint id lists of the relationship query are unchanged by
`create_episode`. -/
theorem create_episode_filter_entity (ep : EpisodeData) (ci : ChapterInfo)
    (ents : List (String × List PyDict)) (now : Nat) (s : Store)
    (pat : List (String × Value)) :
    (create_episode ep ci ents now s).nodes.filter (nodeMatches ["Entity"] pat)
      = s.nodes.filter (nodeMatches ["Entity"] pat) := by
  have hep : ∀ n : Node, n.labels = ["Episode", "Chapter"] →
      nodeMatches ["Entity"] pat n = false := by
    intro n hn
    unfold nodeMatches
    rw [List.all_cons, hn,
      show (["Episode", "Chapter"] : List String).contains "Entity" = false from by
        decide]
    rfl
  unfold create_episode
  dsimp only
  rw [List.filter_append]
  simp [hep]

/-- C1 (amended): the relationship `MERGE` key is the full attribute map
including `created_at`, so storing the same relationship twice merges into
one edge only when the two writes carry the same transaction time: a repeat
of `store_narrative_data` at the *same* time adds no edge at all. -/
theorem relationship_same_time_idempotent (s : Store) (ep1 ep2 : EpisodeData)
    (ci : ChapterInfo) (now : Nat) (rel : PyDict) :
    (store_narrative_data ep2 [] [rel] ci now
        (store_narrative_data ep1 [] [rel] ci now s)).edges
      = (store_narrative_data ep1 [] [rel] ci now s).edges := by
  have hform : ∀ (ep : EpisodeData) (st : Store),
      store_narrative_data ep [] [rel] ci now st
        = if validate_relationship rel then
            store_one_relationship rel ci.title now (create_episode ep ci [] now st)
          else create_episode ep ci [] now st := by
    intro ep st
    unfold store_narrative_data store_relationships store_entities
    dsimp only [List.foldl]
  by_cases hval : validate_relationship rel
  · rw [hform, hform, if_pos hval, if_pos hval]
    unfold store_one_relationship
    dsimp only
    set p := relPropMap rel ci.title now with hp
    set patFrom : List (String × Value) :=
      [("name", Value.str (dictGet rel "from" ""))] with hpatFrom
    set patTo : List (String × Value) :=
      [("name", Value.str (dictGet rel "to" ""))] with hpatTo
    set s1 := create_episode ep1 ci [] now s with hs1
    set A := (s1.nodes.filter (nodeMatches ["Entity"] patFrom)).map
      (fun n => n.id) with hA
    set B := (s1.nodes.filter (nodeMatches ["Entity"] patTo)).map
      (fun n => n.id) with hB
    set r1 := A.foldl (fun acc aId =>
      B.foldl (fun acc2 bId => mergeRelEdge acc2 aId bId p) acc) s1 with hr1
    set s2 := create_episode ep2 ci [] now r1 with hs2
    have hA2 : (s2.nodes.filter (nodeMatches ["Entity"] patFrom)).map
        (fun n => n.id) = A := by
      rw [hs2, create_episode_filter_entity, hr1]
      have : r1.nodes = s1.nodes := relFold_nodes p A B s1
      rw [hr1] at this
      rw [this, hA]
    have hB2 : (s2.nodes.filter (nodeMatches ["Entity"] patTo)).map
        (fun n => n.id) = B := by
      rw [hs2, create_episode_filter_entity, hr1]
      have : r1.nodes = s1.nodes := relFold_nodes p A B s1
      rw [hr1] at this
      rw [this, hB]
    rw [hA2, hB2]
    have hall : ∀ a ∈ A, ∀ b ∈ B, edgeExistsB s2 a b p = true := by
      intro a ha b hb
      rw [edgeExistsB_congr s2 r1 (by rw [hs2]; exact create_episode_edges _ _ _ _ _)]
      exact relFold_ensures p A B (propsMatch_relPropMap_self rel ci.title now) s1 a ha b hb
    rw [relFold_noop p A B s2 hall, hs2, create_episode_edges]
  · rw [hform, hform, if_neg hval, if_neg hval, create_episode_edges]

/-- Episode of the C2 counterexample. -/
def c2ep : EpisodeData := ⟨"Ep D", "text d", "d.txt", 2⟩

/-- Chapter of the C2 counterexample. -/
def c2ci : ChapterInfo := ⟨2, "Chapter Two", 2⟩

/-- A relationship between two entities that do not exist in the store. -/
def c2rel : PyDict :=
  [("from", "Alice"), ("to", "Bob"), ("relationship_type", "TRUSTS")]

/-- Counterexample to C2's first half: storing a relationship whose endpoints
are missing creates no endpoint entities (the query `MATCH`es, it never
`MERGE`s the endpoints) — the edge is silently skipped instead. -/
theorem missing_endpoints_not_created_counterexample :
    countEntityNamed
      (store_narrative_data c2ep [] [c2rel] c2ci 0 ⟨[], [], 0⟩) "Alice" = 0 ∧
    countEntityNamed
      (store_narrative_data c2ep [] [c2rel] c2ci 0 ⟨[], [], 0⟩) "Bob" = 0 ∧
    (store_narrative_data c2ep [] [c2rel] c2ci 0 ⟨[], [], 0⟩).edges = [] :=
  ⟨by decide, by decide, by decide⟩

/-- Two stores with the same node table agree on node-id existence. -/
theorem hasNodeId_congr (s t : Store) (h : s.nodes = t.nodes) (i : Nat) :
    hasNodeId s i = hasNodeId t i := by
  unfold hasNodeId
  rw [h]

/-- Node-id existence survives appending nodes. -/
theorem hasNodeId_of_append (t s : Store) (l : List Node)
    (ht : t.nodes = s.nodes ++ l) (i : Nat) (h : hasNodeId s i = true) :
    hasNodeId t i = true := by
  unfold hasNodeId at h ⊢
  rw [ht, List.any_append, h, Bool.true_or]

/-- Ids read off a filtered node table exist in the store. -/
theorem hasNodeId_of_mem_filter_map (s : Store) (Q : Node → Bool) (i : Nat)
    (h : i ∈ (s.nodes.filter Q).map (fun n => n.id)) :
    hasNodeId s i = true := by
  unfold hasNodeId
  simp only [List.mem_map, List.mem_filter] at h
  obtain ⟨n, ⟨hn, _⟩, rfl⟩ := h
  rw [List.any_eq_true]
  exact ⟨n, hn, by simp⟩

/-- Updating matching nodes with an id-preserving function keeps the id
table. -/
theorem any_id_map_upsert (nodes : List Node) (P : Node → Bool)
    (f : Node → Node) (hf : ∀ n, (f n).id = n.id) (i : Nat) :
    ((nodes.map (fun n => if P n then f n else n)).any (fun n => n.id == i))
      = nodes.any (fun n => n.id == i) := by
  induction nodes with
  | nil => rfl
  | cons n ns ih =>
    simp only [List.map_cons, List.any_cons, ih]
    congr 1
    by_cases hP : P n = true
    · rw [if_pos hP, hf]
    · rw [if_neg hP]

/-- Node `MERGE` leaves the edge table untouched. -/
theorem mergeNode_edges (s : Store) (L : List String)
    (pat : List (String × Value)) (f : Node → Node) :
    (mergeNode s L pat f).1.edges = s.edges := by
  unfold mergeNode
  dsimp only
  split <;> rfl

/-- Node `MERGE` (with an id-preserving `SET`) preserves node-id existence. -/
theorem mergeNode_hasNodeId (s : Store) (L : List String)
    (pat : List (String × Value)) (f : Node → Node)
    (hf : ∀ n, (f n).id = n.id) (i : Nat) (h : hasNodeId s i = true) :
    hasNodeId (mergeNode s L pat f).1 i = true := by
  unfold mergeNode
  dsimp only
  split
  · unfold hasNodeId at h ⊢
    dsimp only
    rw [List.any_append, h, Bool.true_or]
  · unfold hasNodeId at h ⊢
    dsimp only
    rw [any_id_map_upsert _ _ _ hf]
    exact h

/-- The ids bound by a node `MERGE` exist in the merged store. -/
theorem mergeNode_merged_ids (s : Store) (L : List String)
    (pat : List (String × Value)) (f : Node → Node)
    (hf : ∀ n, (f n).id = n.id) :
    ∀ i ∈ (mergeNode s L pat f).2, hasNodeId (mergeNode s L pat f).1 i = true := by
  unfold mergeNode
  dsimp only
  split
  · intro i hi
    simp only [List.mem_singleton] at hi
    subst hi
    unfold hasNodeId
    dsimp only
    rw [List.any_append]
    simp [hf]
  · intro i hi
    simp only [List.mem_map] at hi
    obtain ⟨n, hn, rfl⟩ := hi
    unfold hasNodeId
    dsimp only
    rw [any_id_map_upsert _ _ _ hf, List.any_eq_true]
    exact ⟨n, (List.mem_filter.mp hn).1, by simp⟩

/-- `MENTIONS` merge preserves endpoint integrity when its own endpoints
exist: the created edge uses them, and the `SET` pass changes only props. -/
theorem mergeMentionEdge_endpoints_ok (s : Store) (a b : Nat)
    (r : List (String × Value)) (ha : hasNodeId s a = true)
    (hb : hasNodeId s b = true) (h : edgeEndpointsOk s) :
    edgeEndpointsOk (mergeMentionEdge s a b r) := by
  have hn : ∀ i, hasNodeId (mergeMentionEdge s a b r) i = hasNodeId s i :=
    fun i => hasNodeId_congr _ s (mergeMentionEdge_nodes s a b r) i
  intro e he
  unfold mergeMentionEdge at he
  dsimp only at he
  rw [List.mem_map] at he
  obtain ⟨e', he', rfl⟩ := he
  have hsrc : (if e'.src == a && e'.dst == b && e'.relType == "MENTIONS" then
      { e' with props := setProps e'.props r } else e').src = e'.src := by
    split <;> rfl
  have hdst : (if e'.src == a && e'.dst == b && e'.relType == "MENTIONS" then
      { e' with props := setProps e'.props r } else e').dst = e'.dst := by
    split <;> rfl
  rw [hn, hn, hsrc, hdst]
  split at he'
  · exact h e' he'
  · rcases List.mem_append.mp he' with hm | hm
    · exact h e' hm
    · simp only [List.mem_singleton] at hm
      subst hm
      exact ⟨ha, hb⟩

/-- The inner `MENTIONS` fold preserves endpoint integrity. -/
theorem mention_fold_inner_ok (rprops : List (String × Value)) (entId : Nat)
    (epIds : List Nat) :
    ∀ st : Store, edgeEndpointsOk st → hasNodeId st entId = true →
      (∀ i ∈ epIds, hasNodeId st i = true) →
      edgeEndpointsOk
        (epIds.foldl (fun acc2 epId => mergeMentionEdge acc2 epId entId rprops) st) := by
  induction epIds with
  | nil => intro st h _ _; exact h
  | cons e es ih =>
    intro st h hent heps
    rw [List.foldl_cons]
    have hok := mergeMentionEdge_endpoints_ok st e entId rprops
      (heps e (by simp)) hent h
    have hstab : ∀ i, hasNodeId (mergeMentionEdge st e entId rprops) i
        = hasNodeId st i :=
      fun i => hasNodeId_congr _ st (mergeMentionEdge_nodes st e entId rprops) i
    exact ih _ hok (by rw [hstab]; exact hent)
      (fun i hi => by rw [hstab]; exact heps i (by simp [hi]))

/-- The nested `MENTIONS` folds preserve endpoint integrity. -/
theorem mention_folds_ok (rprops : List (String × Value))
    (epIds entIds : List Nat) :
    ∀ st : Store, edgeEndpointsOk st →
      (∀ i ∈ entIds, hasNodeId st i = true) →
      (∀ i ∈ epIds, hasNodeId st i = true) →
      edgeEndpointsOk
        (entIds.foldl (fun acc entId =>
          epIds.foldl (fun acc2 epId => mergeMentionEdge acc2 epId entId rprops) acc)
          st) := by
  induction entIds with
  | nil => intro st h _ _; exact h
  | cons e es ih =>
    intro st h hents heps
    rw [List.foldl_cons]
    have hok := mention_fold_inner_ok rprops e epIds st h (hents e (by simp)) heps
    have hstab : ∀ i,
        hasNodeId (epIds.foldl
          (fun acc2 epId => mergeMentionEdge acc2 epId e rprops) st) i
          = hasNodeId st i :=
      fun i => hasNodeId_congr _ st (mention_fold_inner_nodes rprops e epIds st) i
    exact ih _ hok (fun i hi => by rw [hstab]; exact hents i (by simp [hi]))
      (fun i hi => by rw [hstab]; exact heps i hi)

/-- Storing one entity preserves endpoint integrity: the entity node is
merged first, and `MENTIONS` edges are only created between node ids bound by
the merge and matched episode nodes. -/
theorem store_one_entity_endpoints_ok (epname category : String)
    (entity : PyDict) (now : Nat) (s : Store) (h : edgeEndpointsOk s) :
    edgeEndpointsOk (store_one_entity epname category entity now s) := by
  unfold store_one_entity
  dsimp only
  have hf : ∀ n : Node,
      (entitySetter
        ((entity.filter (fun kv => kv.1 != "name")).map
          (fun kv => (kv.1, Value.str kv.2)))
        (categorySingular category) now (calculate_narrative_depth entity) n).id
        = n.id := fun n => rfl
  have hok1 : edgeEndpointsOk (mergeNode s ["Entity", categoryLabel category]
      [("name", Value.str (get_entity_key entity category))]
      (entitySetter
        ((entity.filter (fun kv => kv.1 != "name")).map
          (fun kv => (kv.1, Value.str kv.2)))
        (categorySingular category) now (calculate_narrative_depth entity))).1 := by
    intro e he
    rw [mergeNode_edges] at he
    obtain ⟨h1, h2⟩ := h e he
    exact ⟨mergeNode_hasNodeId _ _ _ _ hf _ h1, mergeNode_hasNodeId _ _ _ _ hf _ h2⟩
  exact mention_folds_ok _ _ _ _ hok1
    (mergeNode_merged_ids _ _ _ _ hf)
    (fun i hi => hasNodeId_of_mem_filter_map _ _ i hi)

/-- The per-category entity fold preserves endpoint integrity. -/
theorem store_entities_category_ok (epname category : String) (now : Nat) :
    ∀ (ents : List PyDict) (s : Store), edgeEndpointsOk s →
      edgeEndpointsOk (store_entities_category epname category ents now s) := by
  intro ents
  induction ents with
  | nil => intro s h; exact h
  | cons e es ih =>
    intro s h
    unfold store_entities_category at ih ⊢
    rw [List.foldl_cons]
    by_cases hg : (get_entity_key e category != "") = true
    · rw [if_pos hg]
      exact ih _ (store_one_entity_endpoints_ok epname category e now s h)
    · rw [if_neg hg]
      exact ih _ h

/-- The category fold preserves endpoint integrity. -/
theorem store_entities_ok (epname : String) (now : Nat) :
    ∀ (entities : List (String × List PyDict)) (s : Store), edgeEndpointsOk s →
      edgeEndpointsOk (store_entities epname entities now s) := by
  intro entities
  induction entities with
  | nil => intro s h; exact h
  | cons c cs ih =>
    intro s h
    unfold store_entities at ih ⊢
    rw [List.foldl_cons]
    exact ih _ (store_entities_category_ok epname c.1 now c.2 s h)

/-- Relationship `MERGE` preserves endpoint integrity when its endpoints
exist. -/
theorem mergeRelEdge_endpoints_ok (s : Store) (a b : Nat)
    (p : List (String × Value)) (ha : hasNodeId s a = true)
    (hb : hasNodeId s b = true) (h : edgeEndpointsOk s) :
    edgeEndpointsOk (mergeRelEdge s a b p) := by
  have hn : ∀ i, hasNodeId (mergeRelEdge s a b p) i = hasNodeId s i :=
    fun i => hasNodeId_congr _ s (mergeRelEdge_nodes s a b p) i
  intro e he
  unfold mergeRelEdge at he
  split at he
  · obtain ⟨h1, h2⟩ := h e he
    exact ⟨by rw [hn]; exact h1, by rw [hn]; exact h2⟩
  · rcases List.mem_append.mp he with hm | hm
    · obtain ⟨h1, h2⟩ := h e hm
      exact ⟨by rw [hn]; exact h1, by rw [hn]; exact h2⟩
    · simp only [List.mem_singleton] at hm
      subst hm
      exact ⟨by rw [hn]; exact ha, by rw [hn]; exact hb⟩

/-- The inner relationship fold preserves endpoint integrity. -/
theorem relFold_inner_ok (p : List (String × Value)) (a : Nat) (B : List Nat) :
    ∀ st : Store, edgeEndpointsOk st → hasNodeId st a = true →
      (∀ i ∈ B, hasNodeId st i = true) →
      edgeEndpointsOk (B.foldl (fun acc2 bId => mergeRelEdge acc2 a bId p) st) := by
  induction B with
  | nil => intro st h _ _; exact h
  | cons b bs ih =>
    intro st h hA hB
    rw [List.foldl_cons]
    have hok := mergeRelEdge_endpoints_ok st a b p hA (hB b (by simp)) h
    have hstab : ∀ i, hasNodeId (mergeRelEdge st a b p) i = hasNodeId st i :=
      fun i => hasNodeId_congr _ st (mergeRelEdge_nodes st a b p) i
    exact ih _ hok (by rw [hstab]; exact hA)
      (fun i hi => by rw [hstab]; exact hB i (by simp [hi]))

/-- The nested relationship folds preserve endpoint integrity. -/
theorem relFold_ok (p : List (String × Value)) (A B : List Nat) :
    ∀ st : Store, edgeEndpointsOk st →
      (∀ i ∈ A, hasNodeId st i = true) →
      (∀ i ∈ B, hasNodeId st i = true) →
      edgeEndpointsOk
        (A.foldl (fun acc aId =>
          B.foldl (fun acc2 bId => mergeRelEdge acc2 aId bId p) acc) st) := by
  induction A with
  | nil => intro st h _ _; exact h
  | cons a as ih =>
    intro st h hA hB
    rw [List.foldl_cons]
    have hok := relFold_inner_ok p a B st h (hA a (by simp)) hB
    have hstab : ∀ i,
        hasNodeId (B.foldl (fun acc2 bId => mergeRelEdge acc2 a bId p) st) i
          = hasNodeId st i :=
      fun i => hasNodeId_congr _ st (relFold_inner_nodes p a B st) i
    exact ih _ hok (fun i hi => by rw [hstab]; exact hA i (by simp [hi]))
      (fun i hi => by rw [hstab]; exact hB i hi)

/-- Storing one relationship preserves endpoint integrity: both `MATCH`
clauses only bind existing node ids, and when either finds nothing the edge
is skipped. -/
theorem store_one_relationship_ok (rel : PyDict) (title : String) (now : Nat)
    (s : Store) (h : edgeEndpointsOk s) :
    edgeEndpointsOk (store_one_relationship rel title now s) := by
  unfold store_one_relationship
  dsimp only
  exact relFold_ok _ _ _ s h
    (fun i hi => hasNodeId_of_mem_filter_map _ _ i hi)
    (fun i hi => hasNodeId_of_mem_filter_map _ _ i hi)

/-- The relationship fold preserves endpoint integrity. -/
theorem store_relationships_ok (title : String) (now : Nat) :
    ∀ (rels : List PyDict) (s : Store), edgeEndpointsOk s →
      edgeEndpointsOk (store_relationships rels title now s) := by
  intro rels
  induction rels with
  | nil => intro s h; exact h
  | cons r rs ih =>
    intro s h
    unfold store_relationships at ih ⊢
    rw [List.foldl_cons]
    by_cases hg : validate_relationship r = true
    · rw [if_pos hg]
      exact ih _ (store_one_relationship_ok r title now s h)
    · rw [if_neg hg]
      exact ih _ h

/-- Creating an episode node preserves endpoint integrity (no edges touched,
nodes only grow). -/
theorem create_episode_ok (ep : EpisodeData) (ci : ChapterInfo)
    (ents : List (String × List PyDict)) (now : Nat) (s : Store)
    (h : edgeEndpointsOk s) : edgeEndpointsOk (create_episode ep ci ents now s) := by
  intro e he
  rw [create_episode_edges] at he
  obtain ⟨h1, h2⟩ := h e he
  refine ⟨?_, ?_⟩ <;>
    exact hasNodeId_of_append _ s _ rfl _ (by assumption)

/-- C2 (amended): the store never creates missing endpoints — a relationship
with a missing endpoint is silently skipped by the `MATCH` clauses (see the
counterexample) — and consequently endpoint integrity is an invariant: if
every stored edge has both endpoints in the store, the same holds after any
`store_narrative_data` call, so no dangling edges ever appear. -/
theorem relationship_endpoint_integrity (ep : EpisodeData)
    (entities : List (String × List PyDict)) (rels : List PyDict)
    (ci : ChapterInfo) (now : Nat) (s : Store) (h : edgeEndpointsOk s) :
    edgeEndpointsOk (store_narrative_data ep entities rels ci now s) :=
  store_relationships_ok ci.title now rels _
    (store_entities_ok ep.name now entities _
      (create_episode_ok ep ci entities now s h))

/-- An entity record for the C2 witness. -/
def c2wentity : PyDict := [("name", "Jennings"), ("role", "hero")]

/-- A self-relationship for the C2 witness (its endpoint exists after the
entity pass, so an edge is actually created). -/
def c2wrel : PyDict :=
  [("from", "Jennings"), ("to", "Jennings"), ("relationship_type", "TRUSTS")]

/-- Witness for the amended C2 at a concrete ingestion step from the empty
store. -/
theorem relationship_endpoint_integrity_witness :
    edgeEndpointsOk
      (store_narrative_data c2ep [("characters", [c2wentity])] [c2wrel] c2ci 0
        ⟨[], [], 0⟩) :=
  relationship_endpoint_integrity c2ep [("characters", [c2wentity])] [c2wrel]
    c2ci 0 ⟨[], [], 0⟩ (fun e he => absurd he (List.not_mem_nil e))

/-! ### QA system theorems -/

/-- A compression oracle that always succeeds. -/
def c6post : String → Option String := fun _ => some "SUMMARY"

/-- A question whose only retained search word is `tell`. -/
def c6q : String := "so tell me"

/-- One retrieved episode of 2001 characters (just over the per-episode
compression bound). -/
def c6ep : EpRec :=
  ⟨"E1", String.mk ('t' :: 'e' :: 'l' :: 'l' :: List.replicate 1997 'q'), 1⟩

/-- A database holding only `c6ep`. -/
def c6db : QADb := ⟨[], [], [c6ep], []⟩

/-- Counterexample to C6: there is no whole-context ~8000-character
threshold.  Retrieval here yields a single 2001-character episode: all
retrievable text (2001 chars) and the assembled context actually passed on
(7 chars) are far below 8000, yet compression *is* invoked — the decision is
per-episode (raw content > 2000 characters), not a threshold on the
assembled length `L`. -/
theorem compression_threshold_counterexample :
    (search_manually c6post c6q c6db).compressArgs ≠ [] ∧
    c6ep.content.length = 2001 ∧
    (search_manually c6post c6q c6db).final_context.length < 8000 := by
  have hlen : c6ep.content.data.length = 2001 := by
    show ('t' :: 'e' :: 'l' :: 'l' :: List.replicate 1997 'q').length = 2001
    simp only [List.length_cons, List.length_replicate]
  have hc : c6ep.content.data.length > 2000 := by
    rw [hlen]
    norm_num
  have hb : decide (2000 < c6ep.content.data.length) = true := decide_eq_true hc
  have hretr : retrieved_episodes c6q c6db = [c6ep] := by rfl
  have hfilter : List.filter (fun (e : EpRec) => e.content.data.length > 2000)
      [c6ep] = [c6ep] := by
    rw [List.filter_cons, hb]
    simp
  have hlarge : large_episodes c6q c6db = [⟨c6ep.name, c6ep.content⟩] := by
    unfold large_episodes
    rw [hretr, hfilter]
    rfl
  refine ⟨?_, hlen, ?_⟩
  · unfold search_manually
    dsimp only
    rw [show (large_episodes c6q c6db).isEmpty = false from by rw [hlarge]; rfl]
    simp
  · unfold search_manually
    dsimp only
    have hsmall : small_episode_blocks c6q c6db = [] := by
      unfold small_episode_blocks
      rw [hretr, List.filter_cons, hb]
      simp
    have hcomp : compressed_blocks c6post c6q c6db = ["SUMMARY"] := by
      unfold compressed_blocks
      rw [hlarge]
      rfl
    have hparts : context_parts c6post c6q c6db = ["SUMMARY"] := by
      unfold context_parts
      rw [hsmall, hcomp,
        show character_profiles c6q c6db = [] from rfl,
        show official_blocks c6q c6db = [] from rfl,
        show event_blocks c6q c6db = [] from rfl]
      rfl
    rw [hparts]
    decide

/-- C6 (amended): compression is invoked iff some retrieved episode's raw
content exceeds 2000 characters, independently of the total assembled
length; when no episode is that large the parts (episodes included verbatim)
are joined and passed on unchanged. -/
theorem compression_iff_large_episode (post : String → Option String)
    (question : String) (db : QADb) :
    (search_manually post question db).compressArgs ≠ [] ↔
      ∃ e ∈ retrieved_episodes question db, 2000 < e.content.data.length := by
  have hchar : large_episodes question db = [] ↔
      ∀ e ∈ retrieved_episodes question db, ¬(2000 < e.content.data.length) := by
    unfold large_episodes
    constructor
    · intro hmap e he hlt
      have hf : (retrieved_episodes question db).filter
          (fun e => e.content.data.length > 2000) = [] := by
        by_contra hne
        rcases List.exists_mem_of_ne_nil _ hne with ⟨x, hx⟩
        have : (⟨x.name, x.content⟩ : NamedEp) ∈
            ((retrieved_episodes question db).filter
              (fun e => e.content.data.length > 2000)).map
                (fun e => (⟨e.name, e.content⟩ : NamedEp)) :=
          List.mem_map_of_mem _ hx
        rw [hmap] at this
        exact absurd this (List.not_mem_nil _)
      have : e ∈ (retrieved_episodes question db).filter
          (fun e => e.content.data.length > 2000) := by
        rw [List.mem_filter]
        exact ⟨he, by simpa using hlt⟩
      rw [hf] at this
      exact absurd this (List.not_mem_nil e)
    · intro hall
      have hf : (retrieved_episodes question db).filter
          (fun e => e.content.data.length > 2000) = [] := by
        rw [List.filter_eq_nil_iff]
        intro e he
        simpa using hall e he
      rw [hf]
      rfl
  unfold search_manually
  dsimp only
  by_cases h : (large_episodes question db).isEmpty
  · have h' : large_episodes question db = [] := List.isEmpty_iff.mp h
    rw [if_pos h]
    constructor
    · intro hc
      exact absurd rfl hc
    · rintro ⟨e, he, hlt⟩
      exact absurd hlt (hchar.mp h' e he)
  · have h' : large_episodes question db ≠ [] := by
      simpa [List.isEmpty_iff] using h
    rw [if_neg h]
    constructor
    · intro _
      by_contra hne
      apply h'
      apply hchar.mpr
      intro e he hlt
      exact hne ⟨e, he, hlt⟩
    · intro _
      simp

/-- A compression oracle that always fails (never reached below). -/
def c7post : String → Option String := fun _ => none

/-- A synthesis oracle (never reached below). -/
def c7ollama : String → String := fun _ => "ANSWER"

/-- An empty database: no retrieval strategy can yield anything. -/
def c7db : QADb := ⟨[], [], [], []⟩

/-- Counterexample to C7: when no strategy yields a result the retriever
returns the *empty string* (the join of an empty parts list), not a
"no information found" sentinel; the short-circuit in `answer_question` works
by string falsiness, returning the user-visible message with zero synthesis
calls. -/
theorem not_found_returns_empty_string_counterexample :
    (search_manually c7post "so tell me" c7db).final_context = "" ∧
    notFoundMsg ≠ "" ∧
    answer_question c7post c7ollama "so tell me" c7db = (notFoundMsg, 0) :=
  ⟨by decide, by decide, by decide⟩

/-- C7 (amended): the retriever signals "nothing found" with an empty
string; the synthesizer treats a falsy (empty) context as not-found and
short-circuits with the user-visible message, making no synthesis model
call. -/
theorem empty_context_short_circuits (post : String → Option String)
    (ollama : String → String) (question : String) (db : QADb)
    (h : (search_manually post question db).final_context = "") :
    answer_question post ollama question db = (notFoundMsg, 0) := by
  unfold answer_question search_with_graphiti
  dsimp only
  rw [h]
  rfl

/-- Witness for the amended C7 at the empty database. -/
theorem empty_context_short_circuits_witness :
    (search_manually c7post "so tell me" c7db).final_context = "" ∧
    answer_question c7post c7ollama "so tell me" c7db = (notFoundMsg, 0) :=
  ⟨by decide,
    empty_context_short_circuits c7post c7ollama "so tell me" c7db (by decide)⟩

/-- C8: every entity-profile block is placed at a strictly smaller index of
the assembled context than every content-excerpt block (small episodes and
compressed blocks alike) — priority ordering, not merely insertion order. -/
theorem profile_blocks_precede_content (post : String → Option String)
    (question : String) (db : QADb) (i j : Nat)
    (hi : i < (character_profiles question db).length)
    (hj : j < (small_episode_blocks question db ++
      compressed_blocks post question db).length) :
    ∃ k l : Nat, k < l ∧
      (context_parts post question db)[k]? = (character_profiles question db)[i]? ∧
      (context_parts post question db)[l]?
        = (small_episode_blocks question db ++
            compressed_blocks post question db)[j]? := by
  have hassoc : context_parts post question db
      = character_profiles question db ++
        (official_blocks question db ++
          ((small_episode_blocks question db ++ compressed_blocks post question db)
            ++ event_blocks question db)) := by
    unfold context_parts
    simp [List.append_assoc]
  refine ⟨i,
    (character_profiles question db).length + (official_blocks question db).length + j,
    by omega, ?_, ?_⟩
  · rw [hassoc, List.getElem?_append_left hi]
  · rw [hassoc, List.getElem?_append_right (by omega)]
    have h1 : (character_profiles question db).length +
        (official_blocks question db).length + j -
        (character_profiles question db).length
        = (official_blocks question db).length + j := by omega
    rw [h1, List.getElem?_append_right (by omega)]
    have h2 : (official_blocks question db).length + j -
        (official_blocks question db).length = j := by omega
    rw [h2, List.getElem?_append_left hj]

/-- Compression oracle for the C8 witness. -/
def c8post : String → Option String := fun _ => some "S"

/-- A question with both a known-character hit and an episode keyword. -/
def c8q : String := "who is jennings here"

/-- A database with a matching character and a matching episode. -/
def c8db : QADb :=
  ⟨[⟨some "Jennings", some "Admin", none, none⟩], [],
   [⟨"E1", "jennings was here", 1⟩], []⟩

/-- Witness for C8: a profile block and an episode block both exist, and the
profile's index is strictly smaller. -/
theorem profile_blocks_precede_content_witness :
    0 < (character_profiles c8q c8db).length ∧
    0 < (small_episode_blocks c8q c8db ++ compressed_blocks c8post c8q c8db).length ∧
    ∃ k l : Nat, k < l ∧
      (context_parts c8post c8q c8db)[k]? = (character_profiles c8q c8db)[0]? ∧
      (context_parts c8post c8q c8db)[l]?
        = (small_episode_blocks c8q c8db ++ compressed_blocks c8post c8q c8db)[0]? :=
  ⟨by decide, by decide,
    profile_blocks_precede_content c8post c8q c8db 0 0 (by decide) (by decide)⟩

/-- C10: per query there is at most one batch-compression invocation (hence
at most one compression model call), it receives exactly the first four
large episodes, and it happens iff some large episode was retrieved — large
episodes beyond the first four are never passed to any batch. -/
theorem compression_batched_once (post : String → Option String)
    (question : String) (db : QADb) :
    (search_manually post question db).compressArgs.length ≤ 1 ∧
    (∀ call ∈ (search_manually post question db).compressArgs,
      call = (large_episodes question db).take 4) ∧
    ((search_manually post question db).compressArgs = [] ↔
      large_episodes question db = []) := by
  unfold search_manually
  dsimp only
  by_cases h : (large_episodes question db).isEmpty
  · have h' : large_episodes question db = [] := List.isEmpty_iff.mp h
    rw [if_pos h]
    refine ⟨by simp, by simp, by simp [h']⟩
  · have h' : large_episodes question db ≠ [] := by
      simpa [List.isEmpty_iff] using h
    rw [if_neg h]
    refine ⟨by simp, ?_, by simp [h']⟩
    intro call hc
    simp only [List.mem_singleton] at hc
    exact hc

